import Mathlib

/-!
Verification development for the tariff_fetch repository.

This file gives a shallow embedding of the control-flow-relevant parts of
the repository (the RateAcuity navigation engine, its report extractors,
the CLI retry loop and the two REST paginators) and proves or refutes the
frozen claims about them.

Modelling conventions:
* Python strings are Lean `String`; `str.strip()` is `py_strip` below.
* Python `None`-able values are `Option`; raised exceptions are modelled
  by `Except` with the `PyErr` kind below naming the Python exception
  class actually raised by the source.
* Selenium/driver interactions are abstracted as explicit inputs (option
  lists, directory listings per second, per-call failure injections);
  the control flow around them is translated statement by statement.
-/

/-- Kinds of Python exceptions raised by the modelled code paths. -/
inductive PyErr where
  | webDriver      -- selenium WebDriverException (incl. TimeoutException)
  | runtimeError   -- RuntimeError
  | attributeError -- AttributeError
  | valueError     -- ValueError
  | stopIteration  -- StopIteration
  | typeError      -- TypeError
  deriving DecidableEq, Repr

/-! ## String primitives

The Lean standard string functions (`String.trim`, `String.isPrefixOf`, ...)
are defined by well-founded recursion over byte positions and do not reduce
inside the kernel, so the Python string operations used by the source are
modelled structurally over the character list of the string. -/

/-- Whitespace as recognised by Python's `str.strip()` (restricted to the
ASCII whitespace that occurs in scraped option texts). -/
def is_ws (c : Char) : Bool := c = ' ' || c = '\t' || c = '\n' || c = '\r'

/-- Python `s.strip()`: remove leading and trailing whitespace. -/
def py_strip (s : String) : String :=
  String.mk (((s.data.dropWhile is_ws).reverse.dropWhile is_ws).reverse)

/-- Whether the first list is a prefix of the second. -/
def starts_with : List Char → List Char → Bool
  | [], _ => true
  | _ :: _, [] => false
  | a :: as, b :: bs => a = b && starts_with as bs

/-- Whether `pat` occurs as a contiguous sublist. -/
def has_substr (pat : List Char) : List Char → Bool
  | [] => starts_with pat []
  | c :: rest => starts_with pat (c :: rest) || has_substr pat rest

/-- Python `s.endswith(suf)`. -/
def str_ends_with (s suf : String) : Bool :=
  starts_with suf.data.reverse s.data.reverse

/-! ## DropdownState._select (src/tariff_fetch/rateacuity/state.py, lines 123-143) -/

/-- Helper for `dict_keys`: deduplication keeping first occurrences,
accumulating the values already seen. -/
def dict_keys_aux (seen : List String) : List String → List String
  | [] => []
  | x :: xs =>
      if x ∈ seen then dict_keys_aux seen xs
      else x :: dict_keys_aux (x :: seen) xs

/-- Keys of the Python dict `{option.strip(): option for option in raw_options}`
in insertion order (applied to the already-stripped texts): the first
occurrence of each value is kept. -/
def dict_keys (l : List String) : List String := dict_keys_aux [] l

/-- Value lookup in the dict `{option.strip(): option for option in raw_options}`:
for a duplicated key the value written last wins, so the lookup returns the
last raw option whose stripped text equals the key. -/
def normalized_lookup (raw_options : List String) (key : String) : Option String :=
  raw_options.reverse.find? (fun o => py_strip o = key)

/-- Resolution of a requested choice against the live options, as in
`DropdownState._select`: exact match first (`choice in raw_options`), then
whitespace-trimmed match via the `normalized` dict.  Returns
`(visible_choice, normalized_choice)` on success. -/
def resolve_choice (raw_options : List String) (choice : String) :
    Option (String × String) :=
  if choice ∈ raw_options then some (choice, py_strip choice)
  else
    match normalized_lookup raw_options (py_strip choice) with
    | some visible => some (visible, py_strip choice)
    | none => none

/-- Error payload of the `ValueError` raised by `_select`: the category,
the requested choice, and `list(normalized)` (the stripped option texts,
deduplicated keeping first occurrences). -/
structure InvalidChoice where
  category : String
  requested : String
  available : List String
  deriving DecidableEq, Repr

/-- Model of `DropdownState._select`.  `raw_options` are the live option
texts (`_visible_options`), `current` is `first_selected_option.text` when
a selection exists (the `.strip()` applied to it in the source is applied
here), `choice` is the requested value and `next_state` the state object
passed as `next_state=`.  The result is either the `ValueError` payload or
the list of `select_by_visible_text` invocations (the only DOM mutations)
together with the returned next state. -/
def dropdown_select {σ : Type} (raw_options : List String) (current : Option String)
    (choice : String) (category : String) (next_state : σ) :
    Except InvalidChoice (List String × σ) :=
  match resolve_choice raw_options choice with
  | none =>
      Except.error ⟨category, choice, dict_keys (raw_options.map py_strip)⟩
  | some (visible_choice, normalized_choice) =>
      if current.map py_strip = some normalized_choice then
        Except.ok ([], next_state)
      else
        Except.ok ([visible_choice], next_state)

/-- Model of `select_state` (src/tariff_fetch/rateacuity/base.py, lines
107-114; `select_utility` and `select_schedule`, lines 117-134, are identical
up to the element id and category).  The requested value is tested,
untrimmed, against the trimmed option texts; a miss raises the `ValueError`
carrying the requested value and the trimmed (not deduplicated) option
texts, a hit invokes `select_by_visible_text(choice)` once with the
untrimmed request.  The result is the error payload or the list of select
invocations. -/
def select_state (raw_options : List String) (choice category : String) :
    Except InvalidChoice (List String) :=
  let option_texts := raw_options.map py_strip
  if choice ∈ option_texts then Except.ok [choice]
  else Except.error ⟨category, choice, option_texts⟩

/-! ## ReportState.download_excel (src/tariff_fetch/rateacuity/state.py, lines 218-230)

The directory contents are modelled as a function `listing : Nat → List String`
giving the `os.listdir` output after `t` one-second sleeps; `_get_xlsx` is the
set of `.xlsx` names in it. -/

/-- Model of `_get_xlsx`: the `.xlsx` filenames in a directory listing.  The
Python function returns a set; here the listing order is kept (an `os.listdir`
result has no duplicates) and the set operations below, which are the only
consumers, use membership semantics. -/
def get_xlsx (listing : List String) : List String :=
  listing.filter (fun f => str_ends_with f ".xlsx")

/-- Python set equality of two name collections (membership both ways). -/
def set_eq (a b : List String) : Bool :=
  a.all (fun x => b.contains x) && b.all (fun x => a.contains x)

/-- Python set symmetric difference `a ^ b` as the elements of `a` not in `b`
followed by the elements of `b` not in `a` (a Python set iterator yields its
elements in an unspecified order; the claims below only inspect differences
with zero or one distinct element, for which every order gives this result). -/
def sym_diff (a b : List String) : List String :=
  a.filter (fun x => !b.contains x) ++ b.filter (fun x => !a.contains x)

/-- The polling loop of `download_excel`: starting at time `t` with `n`
iterations left, return the time at which the loop exits (either because the
snapshot changed or because the counter reached zero). -/
def poll_exit (listing : Nat → List String) (initial : List String) :
    Nat → Nat → Nat
  | t, 0 => t
  | t, n + 1 =>
      if set_eq (get_xlsx (listing t)) initial then
        poll_exit listing initial (t + 1) n
      else t

/-- Model of `ReportState.download_excel`: take the initial `.xlsx` snapshot,
poll once per second up to `timeout` times, then take an element of the set
symmetric difference between the current and the initial snapshot
(`next(iter(... ^ ...))`); on an empty difference that `next` raises
`StopIteration`. -/
def download_excel (listing : Nat → List String) (timeout : Nat) :
    Except PyErr String :=
  let initial := get_xlsx (listing 0)
  let t := poll_exit listing initial 0 timeout
  match sym_diff (get_xlsx (listing t)) initial with
  | [] => Except.error PyErr.stopIteration
  | f :: _ => Except.ok f

/-! ## ReportState.as_dataframe (state.py, lines 235-250) and read_excel (base.py, lines 71-82)

A spreadsheet is a list of rows of cells; a cell is `none` for a polars null
(an empty spreadsheet cell) and `some s` for a string cell. -/

/-- A polars cell: `none` is null (empty cell), `some s` a string value. -/
abbrev Cell := Option String

/-- Python substring containment `pat in s` for strings. -/
def contains_substr (s pat : String) : Bool :=
  has_substr pat.data s.data

/-- The header scan
`next(i for i, row in enumerate(raw_data.iter_rows()) if "Component Description" in row[0])`:
an exhausted generator raises `StopIteration`; evaluating `in` against a null
first cell raises `TypeError` (`argument of type NoneType is not iterable`).
A rowless-width-zero frame (empty row) cannot arise from a rectangular frame
with rows; it is collapsed into the `TypeError` case. -/
def scan_header_row_aux : List (List Cell) → Nat → Except PyErr Nat
  | [], _ => Except.error PyErr.stopIteration
  | row :: rest, i =>
      match row.head? with
      | none => Except.error PyErr.typeError
      | some none => Except.error PyErr.typeError
      | some (some s) =>
          if contains_substr s "Component Description" then Except.ok i
          else scan_header_row_aux rest (i + 1)

/-- Index of the first row whose first cell contains `"Component Description"`. -/
def scan_header_row (sheet : List (List Cell)) : Except PyErr Nat :=
  scan_header_row_aux sheet 0

/-- The per-column normalization
`pl.when(pl.col(c).cast(pl.Utf8).str.strip_chars() == "").then(None).otherwise(pl.col(c))`:
a cell that is blank after trimming becomes null, nulls stay null. -/
def normalize_cell (c : Cell) : Cell :=
  match c with
  | none => none
  | some s => if py_strip s = "" then none else some s

/-- Normalization applied to every column of a row. -/
def normalize_row (row : List Cell) : List Cell := row.map normalize_cell

/-- The row filter
`df.filter(pl.col(df.columns[0]).is_not_null() & pl.col(df.columns[1]).is_not_null())`. -/
def keep_row (row : List Cell) : Bool :=
  (row.getD 0 none).isSome && (row.getD 1 none).isSome

/-- Model of `ReportState.as_dataframe` after the download: find the header
row, re-read using it (the rows after it become the data), normalize blanks
to null, and drop rows whose first or second column is null. Returns the
header row and the retained data rows. -/
def as_dataframe (sheet : List (List Cell)) :
    Except PyErr (List Cell × List (List Cell)) :=
  match scan_header_row sheet with
  | Except.error e => Except.error e
  | Except.ok k =>
      let header := (sheet.drop k).headD []
      let data := sheet.drop (k + 1)
      Except.ok (header, (data.map normalize_row).filter keep_row)

/-! ## report_tables.py: sections_to_json (lines 62-81) and _table_json (lines 38-59)

The rendered report DOM restricted to the selector `h3, table.eamwebgrid-table`
is a document-order list of elements.  A table header cell carries the text of
its first nested link, if any, and its own text. -/

/-- A `th` element: `linkText` is the text of the first nested `a`, if any. -/
structure HeaderCell where
  linkText : Option String
  text : String
  deriving DecidableEq, Repr

/-- A `table.eamwebgrid-table` element: its `thead th` cells and `tbody tr`
rows (each a list of `td` texts). -/
structure TableEl where
  headers : List HeaderCell
  rows : List (List String)
  deriving DecidableEq, Repr

/-- An element matched by the CSS selector `h3, table.eamwebgrid-table`,
in document order. -/
inductive ReportEl where
  | heading (text : String)
  | table (t : TableEl)
  deriving DecidableEq, Repr

/-- Model of `_headers_from_table`: for each `th`, the first link text when a
link is present, else the cell text. -/
def headers_from_table (t : TableEl) : List String :=
  t.headers.map (fun th => th.linkText.getD th.text)

/-- Python dict assignment `v[c] = r` on an insertion-ordered dict: an existing
key keeps its position and gets the new value, a new key is appended. -/
def dict_insert (d : List (String × String)) (k v : String) :
    List (String × String) :=
  if d.any (fun p => p.1 = k) then d.map (fun p => if p.1 = k then (k, v) else p)
  else d ++ [(k, v)]

/-- The dict built by `for c, r in zip(columns, row, strict=False): v[c] = r`
(zip truncates to the shorter list). -/
def row_dict (columns row : List String) : List (String × String) :=
  (columns.zip row).foldl (fun d p => dict_insert d p.1 p.2) []

/-- The `TableJson` TypedDict of report_tables.py. -/
structure TableJson where
  title : String
  columns : List String
  values : List (List (String × String))
  deriving DecidableEq, Repr

/-- Model of `_table_json`: `None` when the resolved column list is empty,
else title = first column, one dict per row. -/
def table_json (t : TableEl) : Option TableJson :=
  match headers_from_table t with
  | [] => none
  | c0 :: cs =>
      some ⟨c0, c0 :: cs, t.rows.map (fun row => row_dict (c0 :: cs) row)⟩

/-- The `SectionJson` TypedDict (the Python key `section` is a Lean keyword,
so it is called `sectionTitle` here). -/
structure SectionJson where
  sectionTitle : Option String
  tables : List TableJson
  deriving DecidableEq, Repr

/-- The flush condition `current["section"] is not None or current["tables"]`. -/
def flushable (cur : Option String × List TableJson) : Bool :=
  cur.1.isSome || !cur.2.isEmpty

/-- The loop of `sections_to_json`, with the accumulated `sections` list and
the open `current` record made explicit. -/
def sections_loop :
    List ReportEl → (Option String × List TableJson) → List SectionJson →
    List SectionJson
  | [], cur, acc =>
      if flushable cur then acc ++ [⟨cur.1, cur.2⟩] else acc
  | ReportEl.heading h :: rest, cur, acc =>
      sections_loop rest (some h, [])
        (if flushable cur then acc ++ [⟨cur.1, cur.2⟩] else acc)
  | ReportEl.table t :: rest, cur, acc =>
      sections_loop rest (cur.1, cur.2 ++ (table_json t).toList) acc

/-- Model of `sections_to_json` over the document-order element sequence. -/
def sections_to_json (seq : List ReportEl) : List SectionJson :=
  sections_loop seq (none, []) []

/-- Specification-side view: the tables occurring before the first heading. -/
def tables_before_heading : List ReportEl → List TableEl
  | [] => []
  | ReportEl.heading _ :: _ => []
  | ReportEl.table t :: rest => t :: tables_before_heading rest

/-- Specification-side view: the resolved table entries preceding the first
heading. -/
def pre_tables (seq : List ReportEl) : List TableJson :=
  (tables_before_heading seq).filterMap table_json

/-- Specification-side view: each heading paired with the resolved tables
between it and the next heading (or the end of the document). -/
def headed_sections : List ReportEl → List (String × List TableJson)
  | [] => []
  | ReportEl.heading h :: rest => (h, pre_tables rest) :: headed_sections rest
  | ReportEl.table _ :: rest => headed_sections rest

/-- The headings of the element sequence, in document order. -/
def headings_of (seq : List ReportEl) : List String :=
  seq.filterMap (fun el =>
    match el with
    | ReportEl.heading h => some h
    | ReportEl.table _ => none)

/-! ## The tenacity retry wrapper (src/tariff_fetch/_cli/rateacuity.py, lines 98-109)

`tenacity.Retrying(stop=tenacity.stop_after_attempt(3),
retry=tenacity.retry_if_exception_type(WebDriverException))` runs the attempt
body until it succeeds; an exception of the designated type is retried until
three attempts have run, after which tenacity raises a `RetryError`
(`exhausted` below); any other exception is re-raised immediately. -/

/-- Outcome of a retried computation: success or a propagated error at a given
attempt number (attempts are 1-based), or exhaustion of the attempt budget. -/
inductive RetryOutcome (α : Type) where
  | ok (a : α) (attempt : Nat)
  | raised (e : PyErr) (attempt : Nat)
  | exhausted (e : PyErr)
  deriving DecidableEq, Repr

/-- The retry loop: `f k` is what attempt number `k` does, `fuel` the number
of attempts still allowed. -/
def retry_go {α : Type} (f : Nat → Except PyErr α) : Nat → Nat → RetryOutcome α
  | _, 0 => RetryOutcome.exhausted PyErr.webDriver
  | k, fuel + 1 =>
      match f k with
      | Except.ok a => RetryOutcome.ok a k
      | Except.error e =>
          if e = PyErr.webDriver then
            match fuel with
            | 0 => RetryOutcome.exhausted e
            | fuel2 + 1 => retry_go f (k + 1) (fuel2 + 1)
          else RetryOutcome.raised e k

/-- The configured wrapper: first attempt is number 1, three attempts total,
retrying exactly on `WebDriverException`. -/
def retry_run {α : Type} (f : Nat → Except PyErr α) : RetryOutcome α :=
  retry_go f 1 3

/-! ## process_rateacuity (src/tariff_fetch/_cli/rateacuity.py, lines 88-158)

One attempt of the retry loop is modelled against an `AttemptEnv` describing
everything the outside world does during that attempt: whether the
login/state-selection phase raises `WebDriverException`, the utility options
the portal returns, the answers of the interactive prompts (`none` models a
cancelled prompt, which `questionary`'s `ask()` reports as Python `None`),
whether the utility-selection/schedule-listing step raises
`WebDriverException`, and for each iteration of the schedule-fetch loop
whether it raises an exception (`fetchErr i`, covering
`select_schedule`/`as_sections`/`back_to_selections`). -/

/-- Environment of one attempt: the portal's and the user's behaviour. -/
structure AttemptEnv where
  loginFails : Bool
  utilities : List String
  confirmAnswer : Option Bool
  selectAnswer : Option String
  selectUtilityFails : Bool
  tariffOptions : List String
  checkboxAnswer : Option (List String)
  fetchErr : Nat → Option PyErr

/-- The variables of `process_rateacuity` that persist across attempts:
`selected_utility`, `tariffs_to_include` and `results` (here the list of
schedule names whose fetch completed; the attached section data is omitted). -/
structure PState where
  selectedUtility : Option String
  tariffsToInclude : Option (List String)
  results : List String
  deriving DecidableEq, Repr

/-- Counters of observable side effects of a run: how many times the
utility prompt and the schedule checkbox prompt were invoked, and how many
browser sessions were created. -/
structure Counts where
  utilPrompts : Nat
  tariffPrompts : Nat
  sessions : Nat
  deriving DecidableEq, Repr

/-- How one attempt ended: normal completion, the early `return` taken when
no schedules are pending, or a raised exception. -/
inductive StepOut where
  | success
  | earlyReturn
  | err (e : PyErr)
  deriving DecidableEq, Repr

/-- Stable descending insertion used to model Python's
`sorted(utilities, key=..., reverse=True)` (a stable sort; on equal keys the
earlier element stays first). -/
def insert_desc (score : String → Nat) (a : String) : List String → List String
  | [] => [a]
  | b :: bs =>
      if score b ≤ score a then a :: b :: bs else b :: insert_desc score a bs

/-- Stable descending sort by a score (the fuzzy-match ratio is abstracted as
an arbitrary score function). -/
def sort_desc (score : String → Nat) : List String → List String
  | [] => []
  | x :: xs => insert_desc score x (sort_desc score xs)

/-- The `while tariffs_to_include:` fetch loop: pop the first pending
schedule, fetch it (the environment says whether iteration `i` raises), and
append it to `results` only after its fetch completed.  Returns the remaining
pending list, the results, and the exception that ended the loop, if any. -/
def fetch_loop (fetchErr : Nat → Option PyErr) :
    List String → List String → Nat → List String × List String × Option PyErr
  | [], results, _ => ([], results, none)
  | t :: rest, results, i =>
      match fetchErr i with
      | some e => (rest, results, some e)
      | none => fetch_loop fetchErr rest (results ++ [t]) (i + 1)

/-- The `if selected_utility is None:` prompt block: fuzzy-sort the filtered
utilities by the abstracted score, pop the best guess, keep it when the
confirm prompt is answered affirmatively, otherwise take the fallback select
answer (possibly `None` on cancel; the source then only prints `cancelled`
and falls through). -/
def prompt_utility (score : String → Nat) (s : PState) (e : AttemptEnv) :
    PState :=
  if s.selectedUtility.isNone then
    let scored := sort_desc score (e.utilities.filter (fun u => u ≠ ""))
    let best := scored.headD ""
    { s with selectedUtility :=
        if e.confirmAnswer = some true then some best else e.selectAnswer }
  else s

/-- The `if tariffs_to_include is None:` checkbox prompt block: when the
persistent list is unset, it becomes whatever `questionary.checkbox(...).ask()`
returned (`None` on cancel). -/
def prompt_tariffs (s1 : PState) (e : AttemptEnv) : PState :=
  if s1.tariffsToInclude.isNone then
    { s1 with tariffsToInclude := e.checkboxAnswer }
  else s1

/-- The `while tariffs_to_include:` fetch phase wrapped with its state
update: pending schedules are popped before their fetch and results appended
after; the loop ends normally or with the injected exception. -/
def run_fetch (s2 : PState) (e : AttemptEnv) (pending : List String)
    (uc tc : Nat) : PState × Counts × StepOut :=
  match fetch_loop e.fetchErr pending s2.results 0 with
  | (pending2, results2, none) =>
      ({ s2 with tariffsToInclude := some pending2, results := results2 },
       ⟨uc, tc, 1⟩, StepOut.success)
  | (pending2, results2, some ex) =>
      ({ s2 with tariffsToInclude := some pending2, results := results2 },
       ⟨uc, tc, 1⟩, StepOut.err ex)

/-- One attempt of `process_rateacuity`, statement by statement:
login and state selection (may raise `WebDriverException`); filter falsy
utility options; raise `RuntimeError` when none remain; when
`selected_utility is None`, run the prompt block (fuzzy-sort, pop the best
guess, keep it on a confirmed `confirm`, else take the `select` answer, which
may be `None` after a cancel — the source only prints `cancelled` and falls
through); `select_utility` (a driver interaction that the environment may
fail, and that raises `AttributeError` on a `None` choice via `None.strip()`
or `ValueError` on an unresolvable one); when `tariffs_to_include is None`,
run the checkbox prompt; take the early `return` when the pending list is
falsy; otherwise run the fetch loop. -/
def attempt_step (score : String → Nat) (s : PState) (e : AttemptEnv) :
    PState × Counts × StepOut :=
  if e.loginFails then (s, ⟨0, 0, 1⟩, StepOut.err PyErr.webDriver) else
  if (e.utilities.filter (fun u => u ≠ "")).isEmpty then
    (s, ⟨0, 0, 1⟩, StepOut.err PyErr.runtimeError)
  else
  let uc : Nat := if s.selectedUtility.isNone then 1 else 0
  let s1 := prompt_utility score s e
  match s1.selectedUtility with
  | none =>
      if e.selectUtilityFails then
        (s1, ⟨uc, 0, 1⟩, StepOut.err PyErr.webDriver)
      else (s1, ⟨uc, 0, 1⟩, StepOut.err PyErr.attributeError)
  | some u =>
      if e.selectUtilityFails then
        (s1, ⟨uc, 0, 1⟩, StepOut.err PyErr.webDriver)
      else
        match resolve_choice e.utilities u with
        | none => (s1, ⟨uc, 0, 1⟩, StepOut.err PyErr.valueError)
        | some _ =>
            let tc : Nat := if s1.tariffsToInclude.isNone then 1 else 0
            let s2 := prompt_tariffs s1 e
            match s2.tariffsToInclude with
            | none => (s2, ⟨uc, tc, 1⟩, StepOut.earlyReturn)
            | some pending =>
                if pending.isEmpty then
                  (s2, ⟨uc, tc, 1⟩, StepOut.earlyReturn)
                else run_fetch s2 e pending uc tc

/-- Environment of a whole run: the abstracted fuzzy score and one
`AttemptEnv` per attempt number. -/
structure RunEnv where
  score : String → Nat
  attempts : Nat → AttemptEnv

/-- How the whole `process_rateacuity` call ended: the results file was
written (only after a successful attempt), the early `return` was taken (no
file written), an exception propagated, or the retry budget was exhausted. -/
inductive RunOut where
  | written (results : List String)
  | earlyReturn
  | raised (e : PyErr)
  | exhausted (e : PyErr)
  deriving DecidableEq, Repr

/-- Final state, side-effect counters and outcome of a run. -/
structure RunResult where
  state : PState
  counts : Counts
  out : RunOut
  deriving DecidableEq, Repr

/-- Pointwise sum of side-effect counters. -/
def counts_add (a b : Counts) : Counts :=
  ⟨a.utilPrompts + b.utilPrompts, a.tariffPrompts + b.tariffPrompts,
   a.sessions + b.sessions⟩

/-- The retry loop around the attempt body, with the persistent variables
threaded through: attempt `k` runs against `env.attempts k`; a
`WebDriverException` consumes one unit of fuel, any other exception
propagates, success writes the results file. -/
def run_go (env : RunEnv) : PState → Counts → Nat → Nat → RunResult
  | s, acc, _, 0 => ⟨s, acc, RunOut.exhausted PyErr.webDriver⟩
  | s, acc, k, fuel + 1 =>
      let r := attempt_step env.score s (env.attempts k)
      let acc2 := counts_add acc r.2.1
      match r.2.2 with
      | StepOut.success => ⟨r.1, acc2, RunOut.written r.1.results⟩
      | StepOut.earlyReturn => ⟨r.1, acc2, RunOut.earlyReturn⟩
      | StepOut.err e =>
          if e = PyErr.webDriver then
            if fuel = 0 then ⟨r.1, acc2, RunOut.exhausted e⟩
            else run_go env r.1 acc2 (k + 1) fuel
          else ⟨r.1, acc2, RunOut.raised e⟩

/-- A whole `process_rateacuity` call: fresh persistent state, three
attempts. -/
def run_process (env : RunEnv) : RunResult :=
  run_go env ⟨none, none, []⟩ ⟨0, 0, 0⟩ 1 3

/-! ## tariffs_paginate (src/tariff_fetch/genability/tariffs.py, lines 61-73)
and iter_utility_rates (src/tariff_fetch/openei/utility_rates.py, lines 230-244)

A paginated endpoint is a function from the cursor value to the record list
of the page served at that cursor (the fixed filter parameters are baked into
the function).  The generators are modelled as the full list they yield;
`fuel` bounds the number of loop iterations, `none` meaning the loop did not
finish within the bound (the Python loop does not terminate when every page
satisfies the continue condition). -/

/-- The loop of `tariffs_paginate`: `while rows >= page_count: page = fetch
(offset); rows = len(page); offset += rows; yield from page`. -/
def paginate_go {α : Type} (fetch : Nat → List α) (page_count : Nat) :
    Nat → Nat → Nat → Option (List α)
  | _, _, 0 => none
  | offset, rows, fuel + 1 =>
      if page_count ≤ rows then
        (paginate_go fetch page_count (offset + (fetch offset).length)
            (fetch offset).length fuel).map (fun rest => fetch offset ++ rest)
      else some []

/-- Model of `tariffs_paginate`: the loop entered with `offset = start` and
`rows = page_count` (so the first page is always fetched). -/
def tariffs_paginate {α : Type} (fetch : Nat → List α)
    (start page_count fuel : Nat) : Option (List α) :=
  paginate_go fetch page_count start page_count fuel

/-- The loop of `iter_utility_rates`: `rows = 1` then `while rows: items =
fetch(offset); rows = len(items); offset += rows; yield from items`. -/
def iter_go {α : Type} (fetch : Nat → List α) :
    Nat → Nat → Nat → Option (List α)
  | _, _, 0 => none
  | offset, rows, fuel + 1 =>
      if rows = 0 then some []
      else
        (iter_go fetch (offset + (fetch offset).length)
            (fetch offset).length fuel).map (fun rest => fetch offset ++ rest)

/-- Model of `iter_utility_rates`: the offset cursor starts at `iter_offset`
and `rows` starts at 1, so the first page is always fetched. -/
def iter_utility_rates {α : Type} (fetch : Nat → List α)
    (iter_offset fuel : Nat) : Option (List α) :=
  iter_go fetch iter_offset 1 fuel

/-- Specification-side view of the cursor sequence: the cursor starts at
`start` and advances by the number of records received at each page. -/
def cursor_at {α : Type} (fetch : Nat → List α) (start : Nat) : Nat → Nat
  | 0 => start
  | n + 1 => cursor_at fetch start n + (fetch (cursor_at fetch start n)).length

/-- Specification-side view: the `i`-th page served along the cursor
sequence. -/
def page_at {α : Type} (fetch : Nat → List α) (start i : Nat) : List α :=
  fetch (cursor_at fetch start i)

/-! ## Specification-side predicates and concrete environments -/

/-- Whether a sheet row's first cell is a string containing the literal
marker text `"Component Description"`. -/
def first_cell_marker (row : List Cell) : Bool :=
  match row.head? with
  | some (some s) => contains_substr s "Component Description"
  | _ => false

/-- Whether a sheet row has a (non-null) string first cell. -/
def first_cell_is_string (row : List Cell) : Bool :=
  match row.head? with
  | some (some _) => true
  | _ => false

/-- An attempt environment in which a utility-prompt invocation, if reached,
yields a (possibly empty) selection rather than being cancelled: the confirm
prompt is answered affirmatively, or the fallback select prompt returns a
value. -/
def prompt_answered (e : AttemptEnv) : Prop :=
  e.confirmAnswer = some true ∨ e.selectAnswer ≠ none

/-- First attempt of the run refuting C7: the user declines the fuzzy best
guess and cancels the fallback utility select prompt, and the following
driver interaction (`select_utility`) fails with a retryable
`WebDriverException`. -/
def c7_cx_first : AttemptEnv :=
  { loginFails := false, utilities := ["U1", "U2"], confirmAnswer := some false,
    selectAnswer := none, selectUtilityFails := true, tariffOptions := [],
    checkboxAnswer := none, fetchErr := fun _ => none }

/-- Later attempts of the run refuting C7: prompts answered, no failures. -/
def c7_cx_second : AttemptEnv :=
  { loginFails := false, utilities := ["U1", "U2"], confirmAnswer := some true,
    selectAnswer := none, selectUtilityFails := false, tariffOptions := ["T"],
    checkboxAnswer := some ["T"], fetchErr := fun _ => none }

/-- The run environment refuting C7. -/
def c7_cx_env : RunEnv :=
  { score := fun _ => 0,
    attempts := fun a => if a = 1 then c7_cx_first else c7_cx_second }

/-- First attempt for the C9 scenario: prompts answered (best fuzzy guess
confirmed, all of `chosen` selected), and the fetch loop raises
`WebDriverException` at iteration `k`. -/
def c9_attempt_one (utils chosen : List String) (k : Nat) : AttemptEnv :=
  { loginFails := false, utilities := utils, confirmAnswer := some true,
    selectAnswer := none, selectUtilityFails := false, tariffOptions := chosen,
    checkboxAnswer := some chosen,
    fetchErr := fun i => if i = k then some PyErr.webDriver else none }

/-- Later attempts for the C9 scenario: no failures (the prompts are skipped
because the persistent selections are already set). -/
def c9_attempt_later (utils : List String) : AttemptEnv :=
  { loginFails := false, utilities := utils, confirmAnswer := some true,
    selectAnswer := none, selectUtilityFails := false, tariffOptions := [],
    checkboxAnswer := none, fetchErr := fun _ => none }

/-- The run environment of the C9 scenario: one designated fetch failure in
attempt 1, clean attempts afterwards. -/
def c9_run_env (score : String → Nat) (utils chosen : List String) (k : Nat) :
    RunEnv :=
  { score := score,
    attempts := fun a =>
      if a = 1 then c9_attempt_one utils chosen k else c9_attempt_later utils }

/-! ## Helper lemmas -/

/-- A successful resolution returns a raw option whose stripped text is the
normalized choice, which is the stripped requested text. -/
theorem resolve_choice_spec {raw_options : List String}
    {choice visible normalized : String}
    (h : resolve_choice raw_options choice = some (visible, normalized)) :
    py_strip visible = normalized ∧ normalized = py_strip choice ∧
      visible ∈ raw_options := by
  unfold resolve_choice at h
  by_cases hm : choice ∈ raw_options
  · rw [if_pos hm] at h
    simp only [Option.some.injEq, Prod.mk.injEq] at h
    obtain ⟨rfl, rfl⟩ := h
    exact ⟨rfl, rfl, hm⟩
  · rw [if_neg hm] at h
    cases hl : normalized_lookup raw_options (py_strip choice) with
    | none => rw [hl] at h; cases h
    | some v =>
        rw [hl] at h
        simp only [Option.some.injEq, Prod.mk.injEq] at h
        obtain ⟨rfl, rfl⟩ := h
        unfold normalized_lookup at hl
        have hp := List.find?_some hl
        have hmem := List.mem_of_find?_eq_some hl
        rw [List.mem_reverse] at hmem
        simp only [decide_eq_true_eq] at hp
        exact ⟨hp, rfl, hmem⟩

/-- Resolution fails exactly when the choice matches no option exactly nor
after stripping. -/
theorem resolve_choice_none {raw_options : List String} {choice : String} :
    resolve_choice raw_options choice = none ↔
      choice ∉ raw_options ∧
        ∀ o ∈ raw_options, py_strip o ≠ py_strip choice := by
  unfold resolve_choice
  constructor
  · intro h
    by_cases hm : choice ∈ raw_options
    · rw [if_pos hm] at h; cases h
    · rw [if_neg hm] at h
      refine ⟨hm, ?_⟩
      intro o ho
      cases hl : normalized_lookup raw_options (py_strip choice) with
      | some v => rw [hl] at h; cases h
      | none =>
          unfold normalized_lookup at hl
          rw [List.find?_eq_none] at hl
          intro hcontra
          exact absurd (by simpa using hcontra)
            (by simpa using hl o (List.mem_reverse.mpr ho))
  · rintro ⟨hm, hall⟩
    rw [if_neg hm]
    cases hl : normalized_lookup raw_options (py_strip choice) with
    | none => rfl
    | some v =>
        unfold normalized_lookup at hl
        have hp := List.find?_some hl
        have hmem := List.mem_of_find?_eq_some hl
        rw [List.mem_reverse] at hmem
        simp only [decide_eq_true_eq] at hp
        exact absurd hp (hall v hmem)

/-! ## Claim theorems -/

/-- C1: for every dropdown-select operation, if the requested choice resolves
(exactly or after whitespace trimming) to the option that is the currently
selected option of the live dropdown, the operation emits zero click/select
actions and still returns the next state; and the underlying select primitive
is invoked only when the resolved choice differs (in stripped text) from the
current selection. -/
theorem c1_select_idempotence {σ : Type} (raw_options : List String)
    (current : Option String) (choice category : String) (next_state : σ) :
    (∀ visible normalized,
        resolve_choice raw_options choice = some (visible, normalized) →
        current = some visible →
        dropdown_select raw_options current choice category next_state =
          Except.ok ([], next_state)) ∧
    (∀ acts st,
        dropdown_select raw_options current choice category next_state =
          Except.ok (acts, st) → acts ≠ [] →
        ∃ visible normalized,
          resolve_choice raw_options choice = some (visible, normalized) ∧
          acts = [visible] ∧ st = next_state ∧
          current.map py_strip ≠ some normalized) := by
  constructor
  · intro visible normalized hres hcur
    have hspec := (resolve_choice_spec hres).1
    subst hcur
    simp [dropdown_select, hres, hspec]
  · intro acts st hok hne
    unfold dropdown_select at hok
    cases hres : resolve_choice raw_options choice with
    | none => rw [hres] at hok; cases hok
    | some p =>
        obtain ⟨visible, normalized⟩ := p
        rw [hres] at hok
        have hok2 : (if current.map py_strip = some normalized then
            Except.ok ([], next_state)
          else Except.ok ([visible], next_state)) = Except.ok (acts, st) := hok
        by_cases hc : current.map py_strip = some normalized
        · rw [if_pos hc] at hok2
          simp only [Except.ok.injEq, Prod.mk.injEq] at hok2
          exact absurd hok2.1.symm hne
        · rw [if_neg hc] at hok2
          simp only [Except.ok.injEq, Prod.mk.injEq] at hok2
          exact ⟨visible, normalized, rfl, hok2.1.symm, hok2.2.symm, hc⟩

/-- Witness for C1: requesting `"NY "` (trailing blank) resolves to the
option `"NY"` which is already selected, so no select action is emitted. -/
theorem c1_select_idempotence_witness :
    dropdown_select ["NY", "NJ"] (some "NY") "NY " "State" (0 : Nat) =
      Except.ok ([], 0) :=
  (c1_select_idempotence ["NY", "NJ"] (some "NY") "NY " "State" 0).1
    "NY" "NY" (by decide) rfl

/-- C2 (amended): for `DropdownState._select`, a requested value matching no
live option exactly nor after trimming fails with the invalid-choice error
carrying the requested value and the available (stripped, deduplicated)
options, with no select action performed, and a requested value that does
match never takes the error branch.  The claim's other cited operation,
`select_state` (base.py), instead tests the untrimmed request against the
trimmed option texts: it takes the error branch (carrying the trimmed,
non-deduplicated texts, with no select action) exactly when the untrimmed
request is not among the trimmed texts, so a request matching a live option
only after trimming the request errors there (see the counterexample),
refuting the claim's `matching value never errors` half over that
operation; on a hit it emits one select action with the untrimmed request. -/
theorem c2_invalid_choice {σ : Type} (raw_options : List String)
    (current : Option String) (choice category : String) (next_state : σ) :
    ((choice ∉ raw_options ∧ ∀ o ∈ raw_options, py_strip o ≠ py_strip choice) →
        dropdown_select raw_options current choice category next_state =
          Except.error ⟨category, choice, dict_keys (raw_options.map py_strip)⟩) ∧
    ((choice ∈ raw_options ∨ ∃ o ∈ raw_options, py_strip o = py_strip choice) →
        ∃ acts st,
          dropdown_select raw_options current choice category next_state =
            Except.ok (acts, st)) ∧
    (choice ∉ raw_options.map py_strip →
        select_state raw_options choice category =
          Except.error ⟨category, choice, raw_options.map py_strip⟩) ∧
    (choice ∈ raw_options.map py_strip →
        select_state raw_options choice category = Except.ok [choice]) := by
  refine ⟨?_, ?_, ?_, ?_⟩
  · intro hno
    have hres : resolve_choice raw_options choice = none :=
      resolve_choice_none.mpr hno
    simp [dropdown_select, hres]
  · intro hyes
    have hres : resolve_choice raw_options choice ≠ none := by
      intro hnone
      rcases resolve_choice_none.mp hnone with ⟨hm, hall⟩
      rcases hyes with hmem | ⟨o, ho, heq⟩
      · exact hm hmem
      · exact hall o ho heq
    cases hres2 : resolve_choice raw_options choice with
    | none => exact absurd hres2 hres
    | some p =>
        obtain ⟨visible, normalized⟩ := p
        by_cases hc : current.map py_strip = some normalized
        · exact ⟨[], next_state, by simp [dropdown_select, hres2, hc]⟩
        · exact ⟨[visible], next_state, by simp [dropdown_select, hres2, hc]⟩
  · intro hno
    simp [select_state, hno]
  · intro hyes
    simp [select_state, hyes]

/-- Counterexample for C2 as stated: the requested value `"NY "` matches the
live option `"NY"` after whitespace trimming — `DropdownState._select`
resolves it and succeeds — yet the claim's other cited operation
`select_state` tests the untrimmed request against the trimmed option texts
and takes the error branch for it. -/
theorem c2_counterexample :
    resolve_choice ["NY"] "NY " = some ("NY", "NY") ∧
    dropdown_select ["NY"] none "NY " "State" (0 : Nat) =
      Except.ok (["NY"], 0) ∧
    select_state ["NY"] "NY " "State" =
      Except.error ⟨"State", "NY ", ["NY"]⟩ := by
  refine ⟨rfl, rfl, rfl⟩

/-- Witness for C2: `"CA"` matches no option of `[" NY", "NJ"]` and yields the
invalid-choice error with the stripped available options from both
operations; `"NY"` matches after trimming and takes the success branch of
`DropdownState._select`, and is among the trimmed texts so `select_state`
accepts it too. -/
theorem c2_invalid_choice_witness :
    dropdown_select [" NY", "NJ"] none "CA" "State" (0 : Nat) =
      Except.error ⟨"State", "CA", ["NY", "NJ"]⟩ ∧
    (∃ acts st,
      dropdown_select [" NY", "NJ"] none "NY" "State" (0 : Nat) =
        Except.ok (acts, st)) ∧
    select_state [" NY", "NJ"] "CA" "State" =
      Except.error ⟨"State", "CA", ["NY", "NJ"]⟩ ∧
    select_state [" NY", "NJ"] "NY" "State" = Except.ok ["NY"] :=
  ⟨(c2_invalid_choice [" NY", "NJ"] none "CA" "State" 0).1 (by decide),
   (c2_invalid_choice [" NY", "NJ"] none "NY" "State" 0).2.1 (by decide),
   (c2_invalid_choice [" NY", "NJ"] none "CA" "State" 0).2.2.1 (by decide),
   (c2_invalid_choice [" NY", "NJ"] none "NY" "State" 0).2.2.2 (by decide)⟩

/-- The polling loop exits within its iteration budget. -/
theorem poll_exit_le (listing : Nat → List String) (initial : List String) :
    ∀ n t, poll_exit listing initial t n ≤ t + n := by
  intro n
  induction n with
  | zero => intro t; simp [poll_exit]
  | succ n ih =>
      intro t
      unfold poll_exit
      by_cases h : set_eq (get_xlsx (listing t)) initial = true
      · rw [if_pos h]
        have := ih (t + 1)
        omega
      · rw [if_neg h]
        omega

/-- When the snapshot never changes during the polled window, the loop runs
to the end of its budget. -/
theorem poll_exit_stable (listing : Nat → List String) (initial : List String) :
    ∀ n t, (∀ u, u < t + n → set_eq (get_xlsx (listing u)) initial = true) →
      poll_exit listing initial t n = t + n := by
  intro n
  induction n with
  | zero => intro t _; simp [poll_exit]
  | succ n ih =>
      intro t hall
      unfold poll_exit
      rw [if_pos (hall t (by omega))]
      have := ih (t + 1) (fun u hu => hall u (by omega))
      omega

/-- Two collections equal as sets have an empty symmetric difference. -/
theorem sym_diff_nil_of_set_eq {a b : List String}
    (h : set_eq a b = true) : sym_diff a b = [] := by
  unfold set_eq at h
  rw [Bool.and_eq_true, List.all_eq_true, List.all_eq_true] at h
  unfold sym_diff
  rw [List.append_eq_nil]
  constructor
  · rw [List.filter_eq_nil_iff]
    intro x hx
    have := h.1 x hx
    simp_all
  · rw [List.filter_eq_nil_iff]
    intro x hx
    have := h.2 x hx
    simp_all

/-- When exactly one new name is present (and none disappeared), the
symmetric difference starts with that name. -/
theorem sym_diff_single_new {cur initial : List String} {f : String}
    (hf : f ∈ cur) (hfn : f ∉ initial)
    (hsub : ∀ x ∈ initial, x ∈ cur)
    (honly : ∀ x ∈ cur, x ∈ initial ∨ x = f) :
    ∃ rest, sym_diff cur initial = f :: rest := by
  unfold sym_diff
  have h2 : initial.filter (fun x => !cur.contains x) = [] := by
    rw [List.filter_eq_nil_iff]
    intro x hx
    simp [hsub x hx]
  rw [h2, List.append_nil]
  have hfmem : f ∈ cur.filter (fun x => !initial.contains x) := by
    rw [List.mem_filter]
    refine ⟨hf, ?_⟩
    simp [hfn]
  cases hfl : cur.filter (fun x => !initial.contains x) with
  | nil => rw [hfl] at hfmem; cases hfmem
  | cons a rest =>
      have ha : a ∈ cur.filter (fun x => !initial.contains x) := by
        rw [hfl]; exact List.mem_cons_self a rest
      rw [List.mem_filter] at ha
      have han : a ∉ initial := by
        have := ha.2
        simp at this
        exact this
      rcases honly a ha.1 with hmem | rfl
      · exact absurd hmem han
      · exact ⟨rest, rfl⟩

/-- When exactly one name disappeared (and none appeared), the symmetric
difference starts with that name. -/
theorem sym_diff_single_gone {cur initial : List String} {g : String}
    (hg : g ∈ initial) (hgn : g ∉ cur)
    (hsub : ∀ x ∈ cur, x ∈ initial)
    (honly : ∀ x ∈ initial, x ∈ cur ∨ x = g) :
    ∃ rest, sym_diff cur initial = g :: rest := by
  unfold sym_diff
  have h1 : cur.filter (fun x => !initial.contains x) = [] := by
    rw [List.filter_eq_nil_iff]
    intro x hx
    simp [hsub x hx]
  rw [h1, List.nil_append]
  have hgmem : g ∈ initial.filter (fun x => !cur.contains x) := by
    rw [List.mem_filter]
    refine ⟨hg, ?_⟩
    simp [hgn]
  cases hfl : initial.filter (fun x => !cur.contains x) with
  | nil => rw [hfl] at hgmem; cases hgmem
  | cons a rest =>
      have ha : a ∈ initial.filter (fun x => !cur.contains x) := by
        rw [hfl]; exact List.mem_cons_self a rest
      rw [List.mem_filter] at ha
      have han : a ∉ cur := by
        have := ha.2
        simp at this
        exact this
      rcases honly a ha.1 with hmem | rfl
      · exact absurd hmem han
      · exact ⟨rest, rfl⟩

/-- C3 (amended): the download watcher polls for at most `timeout` iterations;
when exactly one new `.xlsx` name has appeared (and none disappeared) at the
time the loop exits, it returns that name; when the `.xlsx` set never changes
within the bound it fails, raising `StopIteration` (from taking an element of
the empty symmetric difference) rather than a dedicated download-timeout
error; and when one name disappeared (and none appeared) it returns the
disappeared name instead of failing. -/
theorem c3_download_watcher (listing : Nat → List String) (timeout : Nat) :
    poll_exit listing (get_xlsx (listing 0)) 0 timeout ≤ timeout ∧
    (∀ te, te = poll_exit listing (get_xlsx (listing 0)) 0 timeout →
      (∀ f, f ∈ get_xlsx (listing te) → f ∉ get_xlsx (listing 0) →
        (∀ x ∈ get_xlsx (listing 0), x ∈ get_xlsx (listing te)) →
        (∀ x ∈ get_xlsx (listing te), x ∈ get_xlsx (listing 0) ∨ x = f) →
        download_excel listing timeout = Except.ok f) ∧
      (∀ g, g ∈ get_xlsx (listing 0) → g ∉ get_xlsx (listing te) →
        (∀ x ∈ get_xlsx (listing te), x ∈ get_xlsx (listing 0)) →
        (∀ x ∈ get_xlsx (listing 0), x ∈ get_xlsx (listing te) ∨ x = g) →
        download_excel listing timeout = Except.ok g)) ∧
    ((∀ t, t ≤ timeout →
        set_eq (get_xlsx (listing t)) (get_xlsx (listing 0)) = true) →
      download_excel listing timeout = Except.error PyErr.stopIteration) := by
  refine ⟨by simpa using poll_exit_le listing (get_xlsx (listing 0)) timeout 0, ?_, ?_⟩
  · intro te hte
    constructor
    · intro f hf hfn hsub honly
      obtain ⟨rest, hsd⟩ := sym_diff_single_new hf hfn hsub honly
      rw [hte] at hsd
      simp only [download_excel]
      rw [hsd]
    · intro g hg hgn hsub honly
      obtain ⟨rest, hsd⟩ := sym_diff_single_gone hg hgn hsub honly
      rw [hte] at hsd
      simp only [download_excel]
      rw [hsd]
  · intro hstable
    have hte : poll_exit listing (get_xlsx (listing 0)) 0 timeout = timeout := by
      have := poll_exit_stable listing (get_xlsx (listing 0)) timeout 0
        (fun u hu => hstable u (by omega))
      simpa using this
    have hnil : sym_diff
        (get_xlsx (listing (poll_exit listing (get_xlsx (listing 0)) 0 timeout)))
        (get_xlsx (listing 0)) = [] := by
      rw [hte]
      exact sym_diff_nil_of_set_eq (hstable timeout (Nat.le_refl timeout))
    simp only [download_excel]
    rw [hnil]

/-- Counterexample for C3 as stated: with a download directory whose only
`.xlsx` file disappears after the first poll, no new spreadsheet file ever
appears within the bound (every snapshot is contained in the initial one),
yet the watcher does not fail with a timeout error: it returns the path of
the vanished file. -/
theorem c3_counterexample :
    download_excel (fun t => if t = 0 then ["a.xlsx"] else []) 20 =
      Except.ok "a.xlsx" ∧
    ((List.range 22).all (fun t =>
      (get_xlsx (if t = 0 then ["a.xlsx"] else [])).all
        (fun fl => (get_xlsx ["a.xlsx"]).contains fl))) = true := by
  constructor
  · rfl
  · decide

/-- Witness for the C3 theorem: a file `r.xlsx` appears after one second and
is returned; a directory that never changes makes the watcher raise. -/
theorem c3_download_watcher_witness :
    download_excel (fun t => if t = 0 then [] else ["r.xlsx"]) 20 =
      Except.ok "r.xlsx" ∧
    download_excel (fun _ => ["old.xlsx"]) 20 =
      Except.error PyErr.stopIteration :=
  ⟨((c3_download_watcher (fun t => if t = 0 then [] else ["r.xlsx"]) 20).2.1
      1 (by decide)).1 "r.xlsx" (by decide) (by decide) (by decide) (by decide),
   (c3_download_watcher (fun _ => ["old.xlsx"]) 20).2.2
      (fun t _ => by decide)⟩

/-- The header scan returns the index of the first marker row, provided the
rows before it have non-null string first cells. -/
theorem scan_header_row_aux_spec (k : Nat) :
    ∀ (sheet : List (List Cell)) (i : Nat) (row_k : List Cell),
      sheet.get? k = some row_k →
      first_cell_marker row_k = true →
      (∀ j row_j, j < k → sheet.get? j = some row_j →
          first_cell_is_string row_j = true ∧ first_cell_marker row_j = false) →
      scan_header_row_aux sheet i = Except.ok (i + k) := by
  induction k with
  | zero =>
      intro sheet i row_k hget hmark _
      cases sheet with
      | nil => cases hget
      | cons row rest =>
          have hrow : row = row_k := by
            have : some row = some row_k := hget
            injection this
          subst hrow
          unfold first_cell_marker at hmark
          unfold scan_header_row_aux
          cases hh : row.head? with
          | none => rw [hh] at hmark; cases hmark
          | some c =>
              cases c with
              | none => rw [hh] at hmark; cases hmark
              | some s =>
                  rw [hh] at hmark
                  have hm2 : contains_substr s "Component Description" = true :=
                    hmark
                  show (if contains_substr s "Component Description" = true then
                      Except.ok i
                    else scan_header_row_aux rest (i + 1)) = Except.ok (i + 0)
                  rw [if_pos hm2]
                  norm_num
  | succ k ih =>
      intro sheet i row_k hget hmark hpre
      cases sheet with
      | nil => cases hget
      | cons row rest =>
          have h0 := hpre 0 row (Nat.succ_pos k) rfl
          unfold scan_header_row_aux
          cases hh : row.head? with
          | none =>
              exfalso
              have := h0.1
              unfold first_cell_is_string at this
              rw [hh] at this
              cases this
          | some c =>
              cases c with
              | none =>
                  exfalso
                  have := h0.1
                  unfold first_cell_is_string at this
                  rw [hh] at this
                  cases this
              | some s =>
                  have hnm : contains_substr s "Component Description" = false := by
                    have := h0.2
                    unfold first_cell_marker at this
                    rw [hh] at this
                    exact this
                  have hrec := ih rest (i + 1) row_k hget hmark
                    (fun j row_j hj hg => hpre (j + 1) row_j (by omega) hg)
                  show (if contains_substr s "Component Description" = true then
                      Except.ok i
                    else scan_header_row_aux rest (i + 1)) = Except.ok (i + (k + 1))
                  rw [if_neg (by simp [hnm])]
                  rw [hrec]
                  congr 1
                  omega

/-- C4 (amended): for every sheet containing a marker row whose preceding
rows all have non-null string first cells, the parser uses the first such row
as the header, normalizes blank cells to null, and keeps exactly the
following rows whose first two columns are non-null, in order.  (Without the
proviso on the preceding rows, the scan raises a `TypeError`; see the
counterexample.) -/
theorem c4_tabular_parse (sheet : List (List Cell)) (k : Nat)
    (row_k : List Cell)
    (hget : sheet.get? k = some row_k)
    (hmark : first_cell_marker row_k = true)
    (hpre : ∀ j row_j, j < k → sheet.get? j = some row_j →
        first_cell_is_string row_j = true ∧ first_cell_marker row_j = false) :
    scan_header_row sheet = Except.ok k ∧
    as_dataframe sheet =
      Except.ok (row_k,
        ((sheet.drop (k + 1)).map normalize_row).filter keep_row) ∧
    (∀ row, row ∈ ((sheet.drop (k + 1)).map normalize_row).filter keep_row →
        (row.getD 0 none).isSome ∧ (row.getD 1 none).isSome) ∧
    List.Sublist (((sheet.drop (k + 1)).map normalize_row).filter keep_row)
      ((sheet.drop (k + 1)).map normalize_row) := by
  have hscan : scan_header_row sheet = Except.ok k := by
    have := scan_header_row_aux_spec k sheet 0 row_k hget hmark hpre
    simpa [scan_header_row] using this
  refine ⟨hscan, ?_, ?_, List.filter_sublist _⟩
  · unfold as_dataframe
    rw [hscan]
    have hhd : (sheet.drop k).headD [] = row_k := by
      have hh : (sheet.drop k).head? = some row_k := by
        rw [List.head?_drop, ← List.get?_eq_getElem?]; exact hget
      rw [List.headD_eq_head?, hh]
      rfl
    show Except.ok ((sheet.drop k).headD [],
        ((sheet.drop (k + 1)).map normalize_row).filter keep_row) =
      Except.ok (row_k, ((sheet.drop (k + 1)).map normalize_row).filter keep_row)
    rw [hhd]
  · intro row hrow
    rw [List.mem_filter] at hrow
    have hk := hrow.2
    unfold keep_row at hk
    rw [Bool.and_eq_true] at hk
    exact hk

/-- Counterexample for C4 as stated: a sheet that does contain a marker row
(row 1) but whose preceding row has a null first cell makes the header scan
evaluate `"Component Description" in None`, which raises a `TypeError`
instead of parsing with header row 1. -/
theorem c4_counterexample :
    as_dataframe [[none], [some "Component Description"]] =
      Except.error PyErr.typeError ∧
    first_cell_marker [some "Component Description"] = true := by
  constructor
  · rfl
  · decide

/-- Witness for C4: a preamble row, the marker row at index 1, then a kept
data row, a row with a blank (after trim) first cell, and a row with a null
second cell; the latter two are dropped, the first is kept. -/
theorem c4_tabular_parse_witness :
    scan_header_row
      [[some "Electric Benchmark", none],
       [some "Component Description", some "Rate"],
       [some "A", some "1"],
       [some "  ", some "2"],
       [some "B", none]] = Except.ok 1 ∧
    as_dataframe
      [[some "Electric Benchmark", none],
       [some "Component Description", some "Rate"],
       [some "A", some "1"],
       [some "  ", some "2"],
       [some "B", none]] =
      Except.ok ([some "Component Description", some "Rate"],
        [[some "A", some "1"]]) := by
  have h := c4_tabular_parse
    [[some "Electric Benchmark", none],
     [some "Component Description", some "Rate"],
     [some "A", some "1"],
     [some "  ", some "2"],
     [some "B", none]] 1 [some "Component Description", some "Rate"]
    rfl (by decide)
    (by
      intro j row_j hj hg
      have hj0 : j = 0 := by omega
      subst hj0
      have : some [some "Electric Benchmark", (none : Cell)] = some row_j := hg
      injection this with hrow
      subst hrow
      constructor
      · decide
      · decide)
  refine ⟨h.1, ?_⟩
  rw [h.2.1]
  rfl

/-- The accumulated `sections` list of the extractor loop factors out. -/
theorem sections_loop_append (seq : List ReportEl) :
    ∀ cur acc, sections_loop seq cur acc = acc ++ sections_loop seq cur [] := by
  induction seq with
  | nil =>
      intro cur acc
      simp only [sections_loop]
      by_cases h : flushable cur = true
      · rw [if_pos h, if_pos h]; simp
      · rw [if_neg h, if_neg h]; simp
  | cons el rest ih =>
      cases el with
      | heading h =>
          intro cur acc
          simp only [sections_loop]
          by_cases hc : flushable cur = true
          · rw [if_pos hc, if_pos hc]
            rw [ih (some h, []) (acc ++ [SectionJson.mk cur.1 cur.2])]
            rw [ih (some h, []) ([] ++ [SectionJson.mk cur.1 cur.2])]
            simp
          · rw [if_neg hc, if_neg hc]
            rw [ih (some h, []) acc]
      | table t =>
          intro cur acc
          simp only [sections_loop]
          exact ih _ acc

/-- The resolved tables before the first heading, unfolded over a leading
table element. -/
theorem pre_tables_cons_table (t : TableEl) (rest : List ReportEl) :
    pre_tables (ReportEl.table t :: rest) =
      (table_json t).toList ++ pre_tables rest := by
  have h1 : tables_before_heading (ReportEl.table t :: rest) =
      t :: tables_before_heading rest := rfl
  unfold pre_tables
  rw [h1, List.filterMap_cons]
  cases h : table_json t <;> simp [h]

/-- Closed form of the extractor loop started on an open record `(title,
tabs)`: the open record collects the resolved tables up to the next heading
and is flushed when titled or non-empty; afterwards each heading yields a
record with the resolved tables that follow it. -/
theorem sections_loop_spec (seq : List ReportEl) :
    ∀ title tabs, sections_loop seq (title, tabs) [] =
      (if flushable (title, tabs ++ pre_tables seq) = true then
        [⟨title, tabs ++ pre_tables seq⟩] else []) ++
      (headed_sections seq).map (fun p => SectionJson.mk (some p.1) p.2) := by
  induction seq with
  | nil =>
      intro title tabs
      simp [sections_loop, pre_tables, tables_before_heading, headed_sections]
  | cons el rest ih =>
      cases el with
      | heading h =>
          intro title tabs
          simp only [sections_loop]
          rw [sections_loop_append]
          rw [ih (some h) []]
          by_cases hc : flushable (title, tabs) = true <;>
            simp [hc, pre_tables, tables_before_heading, headed_sections,
              flushable]
      | table t =>
          intro title tabs
          simp only [sections_loop]
          rw [ih title (tabs ++ (table_json t).toList)]
          rw [pre_tables_cons_table]
          have hhs : headed_sections (ReportEl.table t :: rest) =
              headed_sections rest := rfl
          rw [hhs]
          simp [List.append_assoc]

/-- Closed form of `sections_to_json`: an optional leading untitled record
with the tables preceding the first heading (present only when non-empty),
then one record per heading with the tables that follow it. -/
theorem sections_to_json_spec (seq : List ReportEl) :
    sections_to_json seq =
      (if pre_tables seq = [] then [] else [⟨none, pre_tables seq⟩]) ++
      (headed_sections seq).map (fun p => SectionJson.mk (some p.1) p.2) := by
  unfold sections_to_json
  rw [sections_loop_spec seq none []]
  cases hp : pre_tables seq with
  | nil => simp [flushable, hp]
  | cons a l => simp [flushable, hp]

/-- Titled records built from heading/tables pairs project back to the
heading list. -/
theorem filterMap_title_map (l : List (String × List TableJson)) :
    (l.map (fun p => SectionJson.mk (some p.1) p.2)).filterMap
      (fun s => s.sectionTitle) = l.map Prod.fst := by
  induction l with
  | nil => rfl
  | cons a l ih => simp [List.filterMap_cons, ih]

/-- The headings paired by `headed_sections` are exactly the document's
headings, in order. -/
theorem headed_sections_fst (seq : List ReportEl) :
    (headed_sections seq).map Prod.fst = headings_of seq := by
  induction seq with
  | nil => rfl
  | cons el rest ih =>
      cases el with
      | heading h => simp [headed_sections, headings_of, List.filterMap_cons, ih]
      | table t => simp [headed_sections, headings_of, List.filterMap_cons, ih]

/-- A resolved table entry always has a non-empty column list. -/
theorem table_json_columns {t : TableEl} {tj : TableJson}
    (h : table_json t = some tj) : tj.columns ≠ [] := by
  unfold table_json at h
  cases hh : headers_from_table t with
  | nil => rw [hh] at h; cases h
  | cons c0 cs =>
      rw [hh] at h
      have h2 : (⟨c0, c0 :: cs,
          t.rows.map (fun row => row_dict (c0 :: cs) row)⟩ : TableJson) = tj := by
        injection h
      rw [← h2]
      simp

/-- Every table of the leading untitled record has resolvable columns. -/
theorem pre_tables_columns {seq : List ReportEl} {tj : TableJson}
    (h : tj ∈ pre_tables seq) : tj.columns ≠ [] := by
  unfold pre_tables at h
  rw [List.mem_filterMap] at h
  obtain ⟨t, _, ht⟩ := h
  exact table_json_columns ht

/-- Every table of every headed record has resolvable columns. -/
theorem headed_sections_columns (seq : List ReportEl) :
    ∀ p ∈ headed_sections seq, ∀ tj ∈ p.2, tj.columns ≠ [] := by
  induction seq with
  | nil => intro p hp; cases hp
  | cons el rest ih =>
      cases el with
      | heading h =>
          intro p hp tj htj
          have hp2 : p ∈ (h, pre_tables rest) :: headed_sections rest := hp
          rcases List.mem_cons.mp hp2 with rfl | hmem
          · exact pre_tables_columns htj
          · exact ih p hmem tj htj
      | table t =>
          intro p hp
          have hp2 : p ∈ headed_sections rest := hp
          exact ih p hp2

/-- C5: over every document-order sequence of headings and tables, the
extractor produces the optional untitled leading record followed by one
record per heading holding the resolved tables up to the next heading (the
final open record included); the titled records enumerate the headings in
order; and no emitted table has an empty column list (zero-column tables are
skipped entirely). -/
theorem c5_sectioned_extractor (seq : List ReportEl) :
    sections_to_json seq =
      (if pre_tables seq = [] then [] else [⟨none, pre_tables seq⟩]) ++
      (headed_sections seq).map (fun p => SectionJson.mk (some p.1) p.2) ∧
    (sections_to_json seq).filterMap (fun s => s.sectionTitle) =
      headings_of seq ∧
    (∀ s, s ∈ sections_to_json seq → ∀ tj, tj ∈ s.tables →
      tj.columns ≠ []) := by
  refine ⟨sections_to_json_spec seq, ?_, ?_⟩
  · rw [sections_to_json_spec seq, List.filterMap_append]
    have h1 : ((if pre_tables seq = [] then [] else
        [⟨none, pre_tables seq⟩]) : List SectionJson).filterMap
        (fun s => s.sectionTitle) = [] := by
      cases hp : pre_tables seq <;> simp
    rw [h1, List.nil_append, filterMap_title_map, headed_sections_fst]
  · intro s hs tj htj
    rw [sections_to_json_spec seq, List.mem_append] at hs
    rcases hs with hs | hs
    · by_cases hp : pre_tables seq = []
      · rw [if_pos hp] at hs; cases hs
      · rw [if_neg hp] at hs
        have hss := List.mem_singleton.mp hs
        subst hss
        exact pre_tables_columns htj
    · rw [List.mem_map] at hs
      obtain ⟨p, hp, rfl⟩ := hs
      exact headed_sections_columns seq p hp tj htj

/-- Witness for C5, mirroring the spec's P5 scenario: heading A with a
two-column table, a zero-column table (skipped), heading B with a one-column
table. -/
theorem c5_sectioned_extractor_witness :
    sections_to_json
      [ReportEl.heading "A",
       ReportEl.table ⟨[⟨none, "x"⟩, ⟨some "y", "th text"⟩], [["1", "2"]]⟩,
       ReportEl.table ⟨[], [["zz"]]⟩,
       ReportEl.heading "B",
       ReportEl.table ⟨[⟨none, "z"⟩], [["3"]]⟩] =
      [⟨some "A", [⟨"x", ["x", "y"], [[("x", "1"), ("y", "2")]]⟩]⟩,
       ⟨some "B", [⟨"z", ["z"], [[("z", "3")]]⟩]⟩] ∧
    (⟨"x", ["x", "y"], [[("x", "1"), ("y", "2")]]⟩ : TableJson).columns ≠ [] :=
  ⟨by decide,
   (c5_sectioned_extractor
      [ReportEl.heading "A",
       ReportEl.table ⟨[⟨none, "x"⟩, ⟨some "y", "th text"⟩], [["1", "2"]]⟩,
       ReportEl.table ⟨[], [["zz"]]⟩,
       ReportEl.heading "B",
       ReportEl.table ⟨[⟨none, "z"⟩], [["3"]]⟩]).2.2
     ⟨some "A", [⟨"x", ["x", "y"], [[("x", "1"), ("y", "2")]]⟩]⟩ (by decide)
     ⟨"x", ["x", "y"], [[("x", "1"), ("y", "2")]]⟩ (by decide)⟩

/-- C10: tables preceding the first heading (or any tables of a document with
no heading at all) are emitted in a leading record whose section title is
null rather than dropped, and a null-titled record is emitted only when it
holds at least one resolved table. -/
theorem c10_leading_section (seq : List ReportEl) :
    (pre_tables seq ≠ [] →
      sections_to_json seq =
        ⟨none, pre_tables seq⟩ ::
          (headed_sections seq).map (fun p => SectionJson.mk (some p.1) p.2)) ∧
    (∀ s, s ∈ sections_to_json seq → s.sectionTitle = none →
      s.tables ≠ []) := by
  constructor
  · intro hne
    rw [sections_to_json_spec seq, if_neg hne]
    rfl
  · intro s hs htitle
    rw [sections_to_json_spec seq, List.mem_append] at hs
    rcases hs with hs | hs
    · by_cases hp : pre_tables seq = []
      · rw [if_pos hp] at hs; cases hs
      · rw [if_neg hp] at hs
        have hss := List.mem_singleton.mp hs
        subst hss
        simpa using hp
    · rw [List.mem_map] at hs
      obtain ⟨p, hp, rfl⟩ := hs
      cases htitle

/-- Witness for C10: a single table with resolvable columns and no heading at
all is emitted under a null section title. -/
theorem c10_leading_section_witness :
    sections_to_json [ReportEl.table ⟨[⟨none, "x"⟩], [["1"]]⟩] =
      [⟨none, [⟨"x", ["x"], [[("x", "1")]]⟩]⟩] := by
  have h := (c10_leading_section
    [ReportEl.table ⟨[⟨none, "x"⟩], [["1"]]⟩]).1 (by decide)
  rw [h]
  decide

/-- C6: the retry wrapper retries only on the designated transient driver
error (`WebDriverException`), runs at most 3 attempts, propagates any other
error immediately (at the attempt that raised it, without consuming further
attempts), exhausts only after three driver failures, and the zero-utilities
condition raises a `RuntimeError`, which is not the retried kind. -/
theorem c6_retry_policy {α : Type} (f : Nat → Except PyErr α) :
    (∀ a k, retry_run f = RetryOutcome.ok a k →
        f k = Except.ok a ∧ k ≤ 3 ∧
        ∀ j, 1 ≤ j → j < k → f j = Except.error PyErr.webDriver) ∧
    (∀ e k, retry_run f = RetryOutcome.raised e k →
        e ≠ PyErr.webDriver ∧ f k = Except.error e ∧ k ≤ 3 ∧
        ∀ j, 1 ≤ j → j < k → f j = Except.error PyErr.webDriver) ∧
    (∀ e, retry_run f = RetryOutcome.exhausted e →
        e = PyErr.webDriver ∧ f 1 = Except.error PyErr.webDriver ∧
        f 2 = Except.error PyErr.webDriver ∧
        f 3 = Except.error PyErr.webDriver) ∧
    (∀ (score : String → Nat) (s : PState) (env : AttemptEnv),
        env.loginFails = false →
        env.utilities.filter (fun u => u ≠ "") = [] →
        (attempt_step score s env).2.2 = StepOut.err PyErr.runtimeError ∧
        PyErr.runtimeError ≠ PyErr.webDriver) := by
  refine ⟨?_, ?_, ?_, ?_⟩
  · intro a k hk
    cases h1 : f 1 with
    | ok a1 =>
        simp [retry_run, retry_go, h1] at hk
        obtain ⟨rfl, rfl⟩ := hk
        exact ⟨h1, by omega, fun j hj1 hj2 => by omega⟩
    | error e1 =>
        by_cases he1 : e1 = PyErr.webDriver
        · subst he1
          cases h2 : f 2 with
          | ok a2 =>
              simp [retry_run, retry_go, h1, h2] at hk
              obtain ⟨rfl, rfl⟩ := hk
              refine ⟨h2, by omega, ?_⟩
              intro j hj1 hj2
              have hj : j = 1 := by omega
              subst hj
              exact h1
          | error e2 =>
              by_cases he2 : e2 = PyErr.webDriver
              · subst he2
                cases h3 : f 3 with
                | ok a3 =>
                    simp [retry_run, retry_go, h1, h2, h3] at hk
                    obtain ⟨rfl, rfl⟩ := hk
                    refine ⟨h3, by omega, ?_⟩
                    intro j hj1 hj2
                    interval_cases j
                    · exact h1
                    · exact h2
                | error e3 =>
                    by_cases he3 : e3 = PyErr.webDriver
                    · subst he3
                      simp [retry_run, retry_go, h1, h2, h3] at hk
                    · simp [retry_run, retry_go, h1, h2, h3, he3] at hk
              · simp [retry_run, retry_go, h1, h2, he2] at hk
        · simp [retry_run, retry_go, h1, he1] at hk
  · intro e k hk
    cases h1 : f 1 with
    | ok a1 => simp [retry_run, retry_go, h1] at hk
    | error e1 =>
        by_cases he1 : e1 = PyErr.webDriver
        · subst he1
          cases h2 : f 2 with
          | ok a2 => simp [retry_run, retry_go, h1, h2] at hk
          | error e2 =>
              by_cases he2 : e2 = PyErr.webDriver
              · subst he2
                cases h3 : f 3 with
                | ok a3 => simp [retry_run, retry_go, h1, h2, h3] at hk
                | error e3 =>
                    by_cases he3 : e3 = PyErr.webDriver
                    · subst he3
                      simp [retry_run, retry_go, h1, h2, h3] at hk
                    · simp [retry_run, retry_go, h1, h2, h3, he3] at hk
                      obtain ⟨rfl, rfl⟩ := hk
                      refine ⟨he3, h3, by omega, ?_⟩
                      intro j hj1 hj2
                      interval_cases j
                      · exact h1
                      · exact h2
              · simp [retry_run, retry_go, h1, h2, he2] at hk
                obtain ⟨rfl, rfl⟩ := hk
                refine ⟨he2, h2, by omega, ?_⟩
                intro j hj1 hj2
                have hj : j = 1 := by omega
                subst hj
                exact h1
        · simp [retry_run, retry_go, h1, he1] at hk
          obtain ⟨rfl, rfl⟩ := hk
          exact ⟨he1, h1, by omega, fun j hj1 hj2 => by omega⟩
  · intro e hk
    cases h1 : f 1 with
    | ok a1 => simp [retry_run, retry_go, h1] at hk
    | error e1 =>
        by_cases he1 : e1 = PyErr.webDriver
        · subst he1
          cases h2 : f 2 with
          | ok a2 => simp [retry_run, retry_go, h1, h2] at hk
          | error e2 =>
              by_cases he2 : e2 = PyErr.webDriver
              · subst he2
                cases h3 : f 3 with
                | ok a3 => simp [retry_run, retry_go, h1, h2, h3] at hk
                | error e3 =>
                    by_cases he3 : e3 = PyErr.webDriver
                    · subst he3
                      simp [retry_run, retry_go, h1, h2, h3] at hk
                      subst hk
                      exact ⟨rfl, by simp [h1], by simp [h2], by simp [h3]⟩
                    · simp [retry_run, retry_go, h1, h2, h3, he3] at hk
              · simp [retry_run, retry_go, h1, h2, he2] at hk
        · simp [retry_run, retry_go, h1, he1] at hk
  · intro score s env hlf hemp
    constructor
    · unfold attempt_step
      split
      · next hl => rw [hlf] at hl; cases hl
      · split
        · rfl
        · next hne => exact absurd (by rw [hemp]; rfl) hne
    · decide

/-- Witness for C6: a first attempt failing with the driver error is retried
and the second attempt succeeds; an attempt body seeing only falsy utility
options ends in `RuntimeError`. -/
theorem c6_retry_policy_witness :
    ((fun k => if k = 1 then Except.error PyErr.webDriver
        else Except.ok (7 : Nat)) 2 = Except.ok 7 ∧ 2 ≤ 3 ∧
      ∀ j, 1 ≤ j → j < 2 →
        (fun k => if k = 1 then Except.error PyErr.webDriver
          else Except.ok (7 : Nat)) j = Except.error PyErr.webDriver) ∧
    ((attempt_step (fun _ => 0) ⟨none, none, []⟩
        ⟨false, [""], none, none, false, [], none, fun _ => none⟩).2.2 =
      StepOut.err PyErr.runtimeError ∧
      PyErr.runtimeError ≠ PyErr.webDriver) :=
  ⟨(c6_retry_policy (fun k => if k = 1 then Except.error PyErr.webDriver
      else Except.ok (7 : Nat))).1 7 2 (by decide),
   (c6_retry_policy (fun _ => Except.ok (0 : Nat))).2.2.2 (fun _ => 0)
      ⟨none, none, []⟩
      ⟨false, [""], none, none, false, [], none, fun _ => none⟩
      rfl (by decide)⟩

/-- Advancing the cursor one page is the same as starting one page later. -/
theorem cursor_at_shift {α : Type} (fetch : Nat → List α) (start : Nat) :
    ∀ i, cursor_at fetch start (i + 1) =
      cursor_at fetch (start + (fetch start).length) i := by
  intro i
  induction i with
  | zero => simp [cursor_at]
  | succ n ih =>
      have h1 : cursor_at fetch start (n + 1 + 1) =
          cursor_at fetch start (n + 1) +
            (fetch (cursor_at fetch start (n + 1))).length := rfl
      have h2 : cursor_at fetch (start + (fetch start).length) (n + 1) =
          cursor_at fetch (start + (fetch start).length) n +
            (fetch (cursor_at fetch (start + (fetch start).length) n)).length :=
        rfl
      rw [h1, h2, ih]

/-- The page after the first is the corresponding page of the shifted
cursor. -/
theorem page_at_shift {α : Type} (fetch : Nat → List α) (start i : Nat) :
    page_at fetch start (i + 1) =
      page_at fetch (start + (fetch start).length) i := by
  unfold page_at
  rw [cursor_at_shift]

/-- Bind over successors of a list of indices. -/
theorem bind_map_succ {β : Type} (f : Nat → List β) :
    ∀ l : List Nat, (l.map Nat.succ).flatMap f = l.flatMap (fun i => f (i + 1)) := by
  intro l
  induction l with
  | nil => rfl
  | cons a l ih => simp [List.flatMap_cons, ih, Nat.succ_eq_add_one]

/-- Peeling the first page off a concatenation of pages. -/
theorem range_bind_succ {β : Type} (f : Nat → List β) (n : Nat) :
    (List.range (n + 1)).flatMap f =
      f 0 ++ (List.range n).flatMap (fun i => f (i + 1)) := by
  rw [List.range_succ_eq_map, List.flatMap_cons, bind_map_succ]

/-- Characterization of the tariffs pagination loop: a terminating run yields
the concatenation of the pages along the advancing cursor, every page before
the last is full (at least `pc` records) and the last is short. -/
theorem paginate_go_spec {α : Type} (fetch : Nat → List α) (pc : Nat) :
    ∀ fuel offset rows l, paginate_go fetch pc offset rows fuel = some l →
      (rows < pc ∧ l = []) ∨
      (pc ≤ rows ∧ ∃ n, 0 < n ∧
        l = (List.range n).flatMap (fun i => page_at fetch offset i) ∧
        (∀ i, i + 1 < n → pc ≤ (page_at fetch offset i).length) ∧
        (page_at fetch offset (n - 1)).length < pc) := by
  intro fuel
  induction fuel with
  | zero => intro offset rows l h; simp [paginate_go] at h
  | succ fuel ih =>
      intro offset rows l h
      by_cases hr : pc ≤ rows
      · right
        refine ⟨hr, ?_⟩
        unfold paginate_go at h
        rw [if_pos hr] at h
        rw [Option.map_eq_some'] at h
        obtain ⟨rest, hrest, hl⟩ := h
        subst hl
        rcases ih (offset + (fetch offset).length) (fetch offset).length rest
            hrest with ⟨hlt, rfl⟩ | ⟨hge, n, hn, rfl, hmid, hlast⟩
        · refine ⟨1, Nat.one_pos, ?_, ?_, ?_⟩
          · simp [List.range_succ, page_at, cursor_at]
          · intro i hi; omega
          · simpa [page_at, cursor_at] using hlt
        · refine ⟨n + 1, by omega, ?_, ?_, ?_⟩
          · rw [range_bind_succ]
            have hsh : (fun i => page_at fetch offset (i + 1)) =
                fun i => page_at fetch (offset + (fetch offset).length) i :=
              funext (fun i => page_at_shift fetch offset i)
            rw [hsh]
            have hp0 : page_at fetch offset 0 = fetch offset := rfl
            rw [hp0]
          · intro i hi
            cases i with
            | zero =>
                have hp0 : page_at fetch offset 0 = fetch offset := rfl
                rw [hp0]
                exact hge
            | succ j =>
                rw [page_at_shift]
                exact hmid j (by omega)
          · have hn1 : n + 1 - 1 = (n - 1) + 1 := by omega
            rw [hn1, page_at_shift]
            exact hlast
      · left
        unfold paginate_go at h
        rw [if_neg hr] at h
        refine ⟨by omega, ?_⟩
        injection h with h2
        exact h2.symm

/-- Characterization of the utility-rates iteration loop: a terminating run
yields the concatenation of the pages along the advancing offset cursor,
every page before the last is non-empty and the last page is empty. -/
theorem iter_go_spec {α : Type} (fetch : Nat → List α) :
    ∀ fuel offset rows l, iter_go fetch offset rows fuel = some l →
      (rows = 0 ∧ l = []) ∨
      (rows ≠ 0 ∧ ∃ n, 0 < n ∧
        l = (List.range n).flatMap (fun i => page_at fetch offset i) ∧
        (∀ i, i + 1 < n → page_at fetch offset i ≠ []) ∧
        page_at fetch offset (n - 1) = []) := by
  intro fuel
  induction fuel with
  | zero => intro offset rows l h; simp [iter_go] at h
  | succ fuel ih =>
      intro offset rows l h
      by_cases hr : rows = 0
      · left
        unfold iter_go at h
        rw [if_pos hr] at h
        refine ⟨hr, ?_⟩
        injection h with h2
        exact h2.symm
      · right
        refine ⟨hr, ?_⟩
        unfold iter_go at h
        rw [if_neg hr] at h
        rw [Option.map_eq_some'] at h
        obtain ⟨rest, hrest, hl⟩ := h
        subst hl
        rcases ih (offset + (fetch offset).length) (fetch offset).length rest
            hrest with ⟨hlt, rfl⟩ | ⟨hge, n, hn, rfl, hmid, hlast⟩
        · refine ⟨1, Nat.one_pos, ?_, ?_, ?_⟩
          · simp [List.range_succ, page_at, cursor_at]
          · intro i hi; omega
          · have hp0 : page_at fetch offset 0 = fetch offset := rfl
            rw [hp0]
            exact List.length_eq_zero.mp hlt
        · refine ⟨n + 1, by omega, ?_, ?_, ?_⟩
          · rw [range_bind_succ]
            have hsh : (fun i => page_at fetch offset (i + 1)) =
                fun i => page_at fetch (offset + (fetch offset).length) i :=
              funext (fun i => page_at_shift fetch offset i)
            rw [hsh]
            have hp0 : page_at fetch offset 0 = fetch offset := rfl
            rw [hp0]
          · intro i hi
            cases i with
            | zero =>
                have hp0 : page_at fetch offset 0 = fetch offset := rfl
                rw [hp0]
                intro hnil
                exact hge (by rw [hnil]; rfl)
            | succ j =>
                rw [page_at_shift]
                exact hmid j (by omega)
          · have hn1 : n + 1 - 1 = (n - 1) + 1 := by omega
            rw [hn1, page_at_shift]
            exact hlast

/-- C8 (amended): every terminating run of a paginator yields the
concatenation, in order, of the record lists of successive pages fetched at a
cursor that advances by the number of records received.  The tariffs
paginator stops requesting further pages exactly when a short page (fewer
records than the requested page size) is returned; the utility-rates
iterator stops exactly when an empty page (zero records) is returned — it
keeps requesting after a short but non-empty page. -/
theorem c8_paginators {α : Type} (fetch_t fetch_u : Nat → List α)
    (start page_count fuel : Nat) :
    (∀ l, tariffs_paginate fetch_t start page_count fuel = some l →
        ∃ n, 0 < n ∧
          l = (List.range n).flatMap (fun i => page_at fetch_t start i) ∧
          (∀ i, i + 1 < n → page_count ≤ (page_at fetch_t start i).length) ∧
          (page_at fetch_t start (n - 1)).length < page_count) ∧
    (∀ l, iter_utility_rates fetch_u start fuel = some l →
        ∃ n, 0 < n ∧
          l = (List.range n).flatMap (fun i => page_at fetch_u start i) ∧
          (∀ i, i + 1 < n → page_at fetch_u start i ≠ []) ∧
          page_at fetch_u start (n - 1) = []) := by
  constructor
  · intro l h
    rcases paginate_go_spec fetch_t page_count fuel start page_count l h with
      ⟨hlt, _⟩ | ⟨_, hex⟩
    · omega
    · exact hex
  · intro l h
    rcases iter_go_spec fetch_u fuel start 1 l h with ⟨h0, _⟩ | ⟨_, hex⟩
    · cases h0
    · exact hex

/-- Counterexample for C8 as stated: the utility-rates iterator receives a
short page (1 record, shorter than any requested page size of 2 or more) at
offset 0 and nevertheless requests the next page, yielding both records;
stopping at the short page would have yielded only the first. -/
theorem c8_counterexample :
    iter_utility_rates
      (fun o => if o = 0 then ["a"] else if o = 1 then ["b"] else []) 0 5 =
      some ["a", "b"] ∧
    ((fun o => if o = 0 then ["a"] else if o = 1 then ["b"]
        else ([] : List String)) 0).length < 2 := by
  constructor
  · rfl
  · decide

/-- Witness for C8: a two-record page followed by a short page for the
tariffs paginator (page size 2), and two singleton pages followed by an empty
page for the utility-rates iterator. -/
theorem c8_paginators_witness :
    (∃ n, 0 < n ∧
      (["x", "y", "z"] : List String) = (List.range n).flatMap
        (fun i => page_at (fun o => if o = 0 then ["x", "y"] else ["z"]) 0 i) ∧
      (∀ i, i + 1 < n →
        2 ≤ (page_at (fun o => if o = 0 then ["x", "y"] else ["z"]) 0 i).length) ∧
      (page_at (fun o => if o = 0 then ["x", "y"] else ["z"]) 0 (n - 1)).length < 2) ∧
    (∃ n, 0 < n ∧
      (["r", "s"] : List String) = (List.range n).flatMap
        (fun i => page_at
          (fun o => if o = 0 then ["r"] else if o = 1 then ["s"] else []) 0 i) ∧
      (∀ i, i + 1 < n →
        page_at (fun o => if o = 0 then ["r"] else if o = 1 then ["s"] else [])
          0 i ≠ []) ∧
      page_at (fun o => if o = 0 then ["r"] else if o = 1 then ["s"] else [])
        0 (n - 1) = []) :=
  ⟨(c8_paginators (fun o => if o = 0 then ["x", "y"] else ["z"])
      (fun o => if o = 0 then ["r"] else if o = 1 then ["s"] else []) 0 2 9).1
      ["x", "y", "z"] rfl,
   (c8_paginators (fun o => if o = 0 then ["x", "y"] else ["z"])
      (fun o => if o = 0 then ["r"] else if o = 1 then ["s"] else []) 0 2 9).2
      ["r", "s"] rfl⟩

/-- The utility prompt block never touches the schedules list. -/
theorem prompt_utility_tar (score : String → Nat) (s : PState)
    (e : AttemptEnv) :
    (prompt_utility score s e).tariffsToInclude = s.tariffsToInclude := by
  unfold prompt_utility
  split <;> rfl

/-- When the selection is already set, the utility prompt block is skipped. -/
theorem prompt_utility_skip (score : String → Nat) (s : PState)
    (e : AttemptEnv) (u : String) (h : s.selectedUtility = some u) :
    prompt_utility score s e = s := by
  unfold prompt_utility
  simp [h]

/-- When the prompt is reached and answered, it leaves a set selection. -/
theorem prompt_utility_answered (score : String → Nat) (s : PState)
    (e : AttemptEnv) (hpa : prompt_answered e)
    (h : s.selectedUtility = none) :
    ∃ w, (prompt_utility score s e).selectedUtility = some w := by
  unfold prompt_utility
  rw [h]
  rcases hpa with hconf | hsa
  · refine ⟨(sort_desc score (e.utilities.filter (fun u => u ≠ ""))).headD "",
      ?_⟩
    simp [hconf]
  · obtain ⟨v, hv⟩ := Option.ne_none_iff_exists'.mp hsa
    by_cases hc : e.confirmAnswer = some true
    · refine ⟨(sort_desc score (e.utilities.filter (fun u => u ≠ ""))).headD "",
        ?_⟩
      simp [hc]
    · refine ⟨v, ?_⟩
      simp [hc, hv]

/-- One attempt invokes the utility prompt at most once, and only when the
persistent selection is unset. -/
theorem attempt_step_util_le (score : String → Nat) (s : PState)
    (e : AttemptEnv) :
    (attempt_step score s e).2.1.utilPrompts ≤
      (if s.selectedUtility.isNone = true then 1 else 0) := by
  simp only [attempt_step, run_fetch]
  repeat' split
  all_goals simp

/-- One attempt invokes the schedule checkbox prompt at most once, and only
when the persistent list is unset. -/
theorem attempt_step_tariff_le (score : String → Nat) (s : PState)
    (e : AttemptEnv) :
    (attempt_step score s e).2.1.tariffPrompts ≤
      (if s.tariffsToInclude.isNone = true then 1 else 0) := by
  simp only [attempt_step, run_fetch, prompt_tariffs, prompt_utility_tar]
  repeat' split
  all_goals simp_all

/-- Once the utility selection is set, an attempt neither re-prompts for it
nor changes it. -/
theorem attempt_step_sel_some (score : String → Nat) (s : PState)
    (e : AttemptEnv) (s2 : PState) (c : Counts) (out : StepOut) (u : String)
    (hr : attempt_step score s e = (s2, c, out))
    (h : s.selectedUtility = some u) :
    s2.selectedUtility = some u ∧ c.utilPrompts = 0 := by
  have hp : prompt_utility score s e = s := prompt_utility_skip score s e u h
  simp only [attempt_step, run_fetch, prompt_tariffs, hp, h] at hr
  repeat' split at hr
  all_goals first
    | (obtain ⟨h1, h2, h3⟩ := hr; try subst h1; try subst h2; try subst h3;
       first | rfl | simp_all)
    | simp_all

/-- Once the schedules-to-include list is set, an attempt does not re-prompt
for it and leaves it set (possibly shrunk by the fetch loop). -/
theorem attempt_step_tar_some (score : String → Nat) (s : PState)
    (e : AttemptEnv) (s2 : PState) (c : Counts) (out : StepOut)
    (l0 : List String)
    (hr : attempt_step score s e = (s2, c, out))
    (h : s.tariffsToInclude = some l0) :
    s2.tariffsToInclude.isSome = true ∧ c.tariffPrompts = 0 := by
  have hp : (prompt_utility score s e).tariffsToInclude = some l0 := by
    rw [prompt_utility_tar, h]
  simp only [attempt_step, run_fetch, prompt_tariffs, hp] at hr
  repeat' split at hr
  all_goals first
    | (obtain ⟨h1, h2, h3⟩ := hr; try subst h1; try subst h2; try subst h3;
       first | rfl | simp_all)
    | simp_all

/-- An attempt that ends in an exception and leaves the schedules list unset
did not invoke the checkbox prompt (the prompt either sets the list or is
followed by the early return, never by an exception). -/
theorem attempt_step_err_tar_none (score : String → Nat) (s : PState)
    (e : AttemptEnv) (s2 : PState) (c : Counts) (e2 : PyErr)
    (hr : attempt_step score s e = (s2, c, StepOut.err e2))
    (htar : s2.tariffsToInclude = none) : c.tariffPrompts = 0 := by
  simp only [attempt_step, run_fetch, prompt_tariffs, prompt_utility_tar]
    at hr
  repeat' split at hr
  all_goals first
    | (obtain ⟨h1, h2, h3⟩ := hr; try subst h1; try subst h2; try subst h3;
       first | rfl | simp_all)
    | simp_all

/-- When every utility-prompt invocation returns a selection, an attempt that
leaves the selection unset did not invoke the prompt (it failed before
reaching it). -/
theorem attempt_step_prompt (score : String → Nat) (s : PState)
    (e : AttemptEnv) (s2 : PState) (c : Counts) (out : StepOut)
    (hr : attempt_step score s e = (s2, c, out))
    (hpa : prompt_answered e) (hnone : s2.selectedUtility = none) :
    c.utilPrompts = 0 := by
  cases hsel : s.selectedUtility with
  | some u => exact (attempt_step_sel_some score s e s2 c out u hr hsel).2
  | none =>
      obtain ⟨w, hw⟩ := prompt_utility_answered score s e hpa hsel
      simp only [attempt_step, run_fetch, prompt_tariffs, hw, hsel] at hr
      repeat' split at hr
      all_goals try (obtain ⟨h1, h2, h3⟩ := hr)
      all_goals try subst h1
      all_goals try subst h2
      all_goals try subst h3
      all_goals try rfl
      all_goals simp_all

/-- Run-level bound: the schedule checkbox prompt fires at most once more
than the accumulated count while the persistent list is unset. -/
theorem run_go_tariff_bound (env : RunEnv) :
    ∀ fuel s acc k, (run_go env s acc k fuel).counts.tariffPrompts ≤
      acc.tariffPrompts +
        (if s.tariffsToInclude.isNone = true then 1 else 0) := by
  intro fuel
  induction fuel with
  | zero => intro s acc k; simp [run_go]
  | succ fuel ih =>
      intro s acc k
      rcases hstep : attempt_step env.score s (env.attempts k) with ⟨s3, c3, out3⟩
      have hle : c3.tariffPrompts ≤
          (if s.tariffsToInclude.isNone = true then 1 else 0) := by
        have h0 := attempt_step_tariff_le env.score s (env.attempts k)
        rw [hstep] at h0
        exact h0
      cases out3 with
      | success =>
          simp only [run_go, hstep, counts_add]
          by_cases hn : s.tariffsToInclude.isNone = true <;>
            simp [hn] at hle ⊢ <;> omega
      | earlyReturn =>
          simp only [run_go, hstep, counts_add]
          by_cases hn : s.tariffsToInclude.isNone = true <;>
            simp [hn] at hle ⊢ <;> omega
      | err e =>
          simp only [run_go, hstep]
          by_cases he : e = PyErr.webDriver
          · rw [if_pos he]
            by_cases hf : fuel = 0
            · rw [if_pos hf]
              simp only [counts_add]
              by_cases hn : s.tariffsToInclude.isNone = true <;>
                simp [hn] at hle ⊢ <;> omega
            · rw [if_neg hf]
              have hrec := ih s3 (counts_add acc c3) (k + 1)
              have haddt : (counts_add acc c3).tariffPrompts =
                  acc.tariffPrompts + c3.tariffPrompts := rfl
              rw [haddt] at hrec
              by_cases hso : s.tariffsToInclude.isNone = true
              · rw [if_pos hso] at hle ⊢
                by_cases hs3 : s3.tariffsToInclude.isNone = true
                · have hs3n : s3.tariffsToInclude = none :=
                    Option.isNone_iff_eq_none.mp hs3
                  have hc3 : c3.tariffPrompts = 0 := by
                    subst he
                    exact attempt_step_err_tar_none env.score s
                      (env.attempts k) s3 c3 PyErr.webDriver hstep hs3n
                  rw [if_pos hs3] at hrec
                  omega
                · rw [if_neg hs3] at hrec
                  omega
              · rw [if_neg hso] at hle ⊢
                have hne : s.tariffsToInclude ≠ none := fun hx =>
                  hso (by rw [hx]; rfl)
                obtain ⟨l0, hl0⟩ := Option.ne_none_iff_exists'.mp hne
                have htars := attempt_step_tar_some env.score s
                  (env.attempts k) s3 c3 (StepOut.err e) l0 hstep hl0
                have hs3 : ¬s3.tariffsToInclude.isNone = true := by
                  rw [Option.isNone_iff_eq_none]
                  intro hx
                  rw [hx] at htars
                  simp at htars
                rw [if_neg hs3] at hrec
                have hc3 := htars.2
                omega
          · rw [if_neg he]
            simp only [counts_add]
            by_cases hn : s.tariffsToInclude.isNone = true <;>
              simp [hn] at hle ⊢ <;> omega

/-- Run-level bound for the utility prompt, under the proviso that every
prompt invocation returns a selection. -/
theorem run_go_util_bound (env : RunEnv)
    (hpa : ∀ k, prompt_answered (env.attempts k)) :
    ∀ fuel s acc k, (run_go env s acc k fuel).counts.utilPrompts ≤
      acc.utilPrompts +
        (if s.selectedUtility.isNone = true then 1 else 0) := by
  intro fuel
  induction fuel with
  | zero => intro s acc k; simp [run_go]
  | succ fuel ih =>
      intro s acc k
      rcases hstep : attempt_step env.score s (env.attempts k) with ⟨s3, c3, out3⟩
      have hle : c3.utilPrompts ≤
          (if s.selectedUtility.isNone = true then 1 else 0) := by
        have h0 := attempt_step_util_le env.score s (env.attempts k)
        rw [hstep] at h0
        exact h0
      cases out3 with
      | success =>
          simp only [run_go, hstep, counts_add]
          by_cases hn : s.selectedUtility.isNone = true <;>
            simp [hn] at hle ⊢ <;> omega
      | earlyReturn =>
          simp only [run_go, hstep, counts_add]
          by_cases hn : s.selectedUtility.isNone = true <;>
            simp [hn] at hle ⊢ <;> omega
      | err e =>
          simp only [run_go, hstep]
          by_cases he : e = PyErr.webDriver
          · rw [if_pos he]
            by_cases hf : fuel = 0
            · rw [if_pos hf]
              simp only [counts_add]
              by_cases hn : s.selectedUtility.isNone = true <;>
                simp [hn] at hle ⊢ <;> omega
            · rw [if_neg hf]
              have hrec := ih s3 (counts_add acc c3) (k + 1)
              have haddt : (counts_add acc c3).utilPrompts =
                  acc.utilPrompts + c3.utilPrompts := rfl
              rw [haddt] at hrec
              by_cases hso : s.selectedUtility.isNone = true
              · rw [if_pos hso] at hle ⊢
                by_cases hs3 : s3.selectedUtility.isNone = true
                · have hs3n : s3.selectedUtility = none :=
                    Option.isNone_iff_eq_none.mp hs3
                  have hc3 : c3.utilPrompts = 0 :=
                    attempt_step_prompt env.score s (env.attempts k) s3 c3
                      (StepOut.err e) hstep (hpa k) hs3n
                  rw [if_pos hs3] at hrec
                  omega
                · rw [if_neg hs3] at hrec
                  omega
              · rw [if_neg hso] at hle ⊢
                have hne : s.selectedUtility ≠ none := fun hx =>
                  hso (by rw [hx]; rfl)
                obtain ⟨u, hu⟩ := Option.ne_none_iff_exists'.mp hne
                have hsels := attempt_step_sel_some env.score s
                  (env.attempts k) s3 c3 (StepOut.err e) u hstep hu
                have hs3 : ¬s3.selectedUtility.isNone = true := by
                  rw [hsels.1]
                  simp
                rw [if_neg hs3] at hrec
                have hc3 := hsels.2
                omega
          · rw [if_neg he]
            simp only [counts_add]
            by_cases hn : s.selectedUtility.isNone = true <;>
              simp [hn] at hle ⊢ <;> omega

/-- C7 (amended): within one run, the schedule checkbox prompt is invoked at
most once unconditionally; the utility prompt is invoked at most once
provided every invocation of it returns a selection (is not cancelled); and
once either persistent value is set, an attempt skips the corresponding
prompt (and leaves the utility selection unchanged), even though every
attempt creates a fresh browser session.  (Without the proviso the utility
prompt can fire twice; see the counterexample.) -/
theorem c7_prompt_once (env : RunEnv) :
    (run_process env).counts.tariffPrompts ≤ 1 ∧
    ((∀ k, prompt_answered (env.attempts k)) →
      (run_process env).counts.utilPrompts ≤ 1) ∧
    (∀ (score : String → Nat) (s : PState) (e : AttemptEnv) (s2 : PState)
        (c : Counts) (out : StepOut) (u : String),
      attempt_step score s e = (s2, c, out) → s.selectedUtility = some u →
      s2.selectedUtility = some u ∧ c.utilPrompts = 0) ∧
    (∀ (score : String → Nat) (s : PState) (e : AttemptEnv) (s2 : PState)
        (c : Counts) (out : StepOut) (l0 : List String),
      attempt_step score s e = (s2, c, out) → s.tariffsToInclude = some l0 →
      s2.tariffsToInclude.isSome = true ∧ c.tariffPrompts = 0) := by
  refine ⟨?_, ?_, ?_, ?_⟩
  · have h := run_go_tariff_bound env 3 ⟨none, none, []⟩ ⟨0, 0, 0⟩ 1
    simpa [run_process] using h
  · intro hpa
    have h := run_go_util_bound env hpa 3 ⟨none, none, []⟩ ⟨0, 0, 0⟩ 1
    simpa [run_process] using h
  · intro score s e s2 c out u hr h
    exact attempt_step_sel_some score s e s2 c out u hr h
  · intro score s e s2 c out l0 hr h
    exact attempt_step_tar_some score s e s2 c out l0 hr h

/-- Counterexample for C7 as stated: when the utility prompt of attempt 1 is
cancelled (the source only prints `cancelled`) and the next driver call
raises the retryable `WebDriverException`, attempt 2 re-invokes the utility
prompt — two invocations in one run. -/
theorem c7_counterexample :
    (run_process c7_cx_env).counts.utilPrompts = 2 ∧
    ¬(run_process c7_cx_env).counts.utilPrompts ≤ 1 := by
  constructor
  · rfl
  · decide

/-- Witness for C7: a run whose prompts are always answered invokes each
prompt at most once, and an attempt started with both persistent values set
skips both prompts. -/
theorem c7_prompt_once_witness :
    (run_process ⟨fun _ => 0, fun _ => c7_cx_second⟩).counts.tariffPrompts ≤ 1 ∧
    (run_process ⟨fun _ => 0, fun _ => c7_cx_second⟩).counts.utilPrompts ≤ 1 ∧
    ((⟨some "U1", some [], ["T"]⟩ : PState).selectedUtility = some "U1" ∧
      (⟨0, 0, 1⟩ : Counts).utilPrompts = 0) ∧
    ((⟨some "U1", some [], ["T"]⟩ : PState).tariffsToInclude.isSome = true ∧
      (⟨0, 0, 1⟩ : Counts).tariffPrompts = 0) :=
  ⟨(c7_prompt_once ⟨fun _ => 0, fun _ => c7_cx_second⟩).1,
   (c7_prompt_once ⟨fun _ => 0, fun _ => c7_cx_second⟩).2.1
     (fun _ => Or.inl rfl),
   (c7_prompt_once ⟨fun _ => 0, fun _ => c7_cx_second⟩).2.2.1
     (fun _ => 0) ⟨some "U1", some ["T"], []⟩ c7_cx_second
     ⟨some "U1", some [], ["T"]⟩ ⟨0, 0, 1⟩ StepOut.success "U1"
     (by decide) rfl,
   (c7_prompt_once ⟨fun _ => 0, fun _ => c7_cx_second⟩).2.2.2
     (fun _ => 0) ⟨some "U1", some ["T"], []⟩ c7_cx_second
     ⟨some "U1", some [], ["T"]⟩ ⟨0, 0, 1⟩ StepOut.success ["T"]
     (by decide) rfl⟩

/-- A fetch loop with no failures pops every pending schedule and appends
each to the results, in order. -/
theorem fetch_loop_clean (ferr : Nat → Option PyErr)
    (hclean : ∀ j, ferr j = none) :
    ∀ pending results i, fetch_loop ferr pending results i =
      ([], results ++ pending, none) := by
  intro pending
  induction pending with
  | nil => intro results i; simp [fetch_loop]
  | cons t rest ih =>
      intro results i
      simp [fetch_loop, hclean i, ih]

/-- A fetch loop whose iteration `k` raises pops the first `k - i + 1`
pending schedules, appends the first `k - i` of them to the results, and
loses the in-flight one. -/
theorem fetch_loop_fail_at (k : Nat) (ferr : Nat → Option PyErr)
    (hf : ∀ j, ferr j = if j = k then some PyErr.webDriver else none) :
    ∀ pending results i, i ≤ k → k - i < pending.length →
      fetch_loop ferr pending results i =
        (pending.drop (k - i + 1), results ++ pending.take (k - i),
         some PyErr.webDriver) := by
  intro pending
  induction pending with
  | nil => intro results i hik hlen; simp at hlen
  | cons t rest ih =>
      intro results i hik hlen
      by_cases hio : i = k
      · subst hio
        have hferr : ferr i = some PyErr.webDriver := by rw [hf i]; simp
        simp [fetch_loop, hferr, Nat.sub_self]
      · have hlt : i < k := lt_of_le_of_ne hik hio
        have hferr : ferr i = none := by rw [hf i]; simp [hio]
        obtain ⟨m, hm⟩ : ∃ m, k - i = m + 1 := ⟨k - i - 1, by omega⟩
        have hm2 : k - (i + 1) = m := by omega
        have hrec := ih (results ++ [t]) (i + 1) (by omega)
          (by rw [hm2]; simp at hlen; omega)
        have hstep : fetch_loop ferr (t :: rest) results i =
            fetch_loop ferr rest (results ++ [t]) (i + 1) := by
          simp [fetch_loop, hferr]
        rw [hstep, hrec, hm2, hm]
        simp

/-- Membership is preserved by the stable descending insertion. -/
theorem insert_desc_mem (score : String → Nat) (a : String) :
    ∀ l x, x ∈ insert_desc score a l ↔ x = a ∨ x ∈ l := by
  intro l
  induction l with
  | nil => intro x; simp [insert_desc]
  | cons b bs ih =>
      intro x
      unfold insert_desc
      by_cases hc : score b ≤ score a
      · rw [if_pos hc]
        simp
      · rw [if_neg hc]
        simp [ih]
        tauto

/-- Membership is preserved by the stable descending sort. -/
theorem sort_desc_mem (score : String → Nat) :
    ∀ l x, x ∈ sort_desc score l ↔ x ∈ l := by
  intro l
  induction l with
  | nil => intro x; simp [sort_desc]
  | cons b bs ih =>
      intro x
      simp [sort_desc, insert_desc_mem, ih]

/-- Sorting a non-empty list is non-empty. -/
theorem sort_desc_ne_nil (score : String → Nat) (l : List String)
    (h : l ≠ []) : sort_desc score l ≠ [] := by
  intro hnil
  rcases l with _ | ⟨a, as⟩
  · exact h rfl
  · have : a ∈ sort_desc score (a :: as) :=
      (sort_desc_mem score (a :: as) a).mpr (List.mem_cons_self a as)
    rw [hnil] at this
    cases this

/-- The fuzzy best guess is one of the live utility options. -/
theorem sort_desc_headD_mem (score : String → Nat) (l : List String)
    (h : l ≠ []) : (sort_desc score l).headD "" ∈ l := by
  rcases hs : sort_desc score l with _ | ⟨a, as⟩
  · exact absurd hs (sort_desc_ne_nil score l h)
  · have : a ∈ sort_desc score l := by rw [hs]; exact List.mem_cons_self a as
    rw [sort_desc_mem] at this
    simpa [hs] using this

/-- Characterization of the first C9 attempt: both prompts fire, the fuzzy
best guess is kept, all chosen schedules become pending, and the fetch loop
pops schedules 0..k, appends 0..k-1 to the results, and raises on the k-th. -/
theorem attempt_step_c9_first (score : String → Nat)
    (utils chosen : List String) (k : Nat)
    (hu : utils.filter (fun u => u ≠ "") ≠ []) (hk : k < chosen.length) :
    attempt_step score ⟨none, none, []⟩ (c9_attempt_one utils chosen k) =
      (⟨some ((sort_desc score (utils.filter (fun u => u ≠ ""))).headD ""),
        some (chosen.drop (k + 1)), chosen.take k⟩,
       ⟨1, 1, 1⟩, StepOut.err PyErr.webDriver) := by
  have hbest : (sort_desc score (utils.filter (fun u => u ≠ ""))).headD "" ∈ utils :=
    List.mem_of_mem_filter (sort_desc_headD_mem score _ hu)
  have hres : resolve_choice utils
      ((sort_desc score (utils.filter (fun u => u ≠ ""))).headD "") =
      some (((sort_desc score (utils.filter (fun u => u ≠ ""))).headD ""),
        py_strip ((sort_desc score (utils.filter (fun u => u ≠ ""))).headD "")) := by
    unfold resolve_choice
    rw [if_pos hbest]
  have hemp : (utils.filter (fun u => u ≠ "")).isEmpty = false := by
    rcases hfil : utils.filter (fun u => u ≠ "") with _ | ⟨a, l⟩
    · exact absurd hfil hu
    · rfl
  have hch : chosen.isEmpty = false := by
    rcases chosen with _ | ⟨c, cs⟩
    · simp at hk
    · rfl
  have hfetch : fetch_loop (fun i => if i = k then some PyErr.webDriver else none)
      chosen [] 0 =
      (chosen.drop (k + 1), chosen.take k, some PyErr.webDriver) := by
    have h := fetch_loop_fail_at k
      (fun i => if i = k then some PyErr.webDriver else none)
      (fun j => rfl) chosen [] 0 (Nat.zero_le k) (by simpa using hk)
    simpa using h
  have hne : ¬ ∀ a ∈ utils, a = "" := by
    intro hall
    rcases hfil : utils.filter (fun u => u ≠ "") with _ | ⟨a, l⟩
    · exact hu hfil
    · have ha : a ∈ utils.filter (fun u => u ≠ "") := by
        rw [hfil]
        exact List.mem_cons_self a l
      have hp := List.of_mem_filter ha
      simp at hp
      exact hp (hall a (List.mem_of_mem_filter ha))
  simp at hres
  simp [attempt_step, c9_attempt_one, prompt_utility, prompt_tariffs, run_fetch,
    hemp, hne, hres, hch, hfetch]

/-- Characterization of a later C9 attempt: both prompts are skipped because
the persistent selections are set; an empty pending list takes the early
return, a non-empty one is fetched cleanly and appended to the results. -/
theorem attempt_step_c9_later (score : String → Nat) (utils : List String)
    (u : String) (rest res0 : List String)
    (hu : utils.filter (fun v => v ≠ "") ≠ []) (humem : u ∈ utils) :
    attempt_step score ⟨some u, some rest, res0⟩ (c9_attempt_later utils) =
      (if rest.isEmpty then
        (⟨some u, some rest, res0⟩, ⟨0, 0, 1⟩, StepOut.earlyReturn)
      else (⟨some u, some [], res0 ++ rest⟩, ⟨0, 0, 1⟩, StepOut.success)) := by
  have hres : resolve_choice utils u = some (u, py_strip u) := by
    unfold resolve_choice
    rw [if_pos humem]
  have hemp : (utils.filter (fun v => v ≠ "")).isEmpty = false := by
    rcases hfil : utils.filter (fun v => v ≠ "") with _ | ⟨a, l⟩
    · exact absurd hfil hu
    · rfl
  have hne : ¬ ∀ a ∈ utils, a = "" := by
    intro hall
    rcases hfil : utils.filter (fun v => v ≠ "") with _ | ⟨a, l⟩
    · exact hu hfil
    · have ha : a ∈ utils.filter (fun v => v ≠ "") := by
        rw [hfil]
        exact List.mem_cons_self a l
      have hp := List.of_mem_filter ha
      simp at hp
      exact hp (hall a (List.mem_of_mem_filter ha))
  rcases rest with _ | ⟨r, rs⟩
  · simp [attempt_step, c9_attempt_later, prompt_utility, prompt_tariffs,
      hemp, hne, hres]
  · have hclean := fetch_loop_clean (fun _ => none) (fun _ => rfl) (r :: rs) res0 0
    simp [attempt_step, c9_attempt_later, prompt_utility, prompt_tariffs,
      run_fetch, hemp, hne, hres, hclean]

/-- C9: pending schedules are popped before their fetch and results appended
only after it completes, so when the fetch of schedule `k` raises a retryable
driver failure, the retry resumes with the remaining schedules only: the
in-flight schedule `k` is never re-fetched and is absent from the written
results, which contain the earlier completions exactly once followed by the
remaining schedules — except that when the in-flight schedule was the last
pending one, the next attempt finds the pending list empty and takes the
early `return`, so no results file is written at all (refuting the claim's
"results completed in earlier attempts are retained" for that case). -/
theorem c9_schedule_resume (score : String → Nat)
    (utils chosen : List String) (k : Nat)
    (hu : utils.filter (fun u => u ≠ "") ≠ []) (hk : k < chosen.length) :
    (run_process (c9_run_env score utils chosen k)).out =
      (if chosen.drop (k + 1) = [] then RunOut.earlyReturn
       else RunOut.written (chosen.take k ++ chosen.drop (k + 1))) := by
  have hbest : (sort_desc score (utils.filter (fun u => u ≠ ""))).headD "" ∈ utils :=
    List.mem_of_mem_filter (sort_desc_headD_mem score _ hu)
  have h1 := attempt_step_c9_first score utils chosen k hu hk
  have h2 := attempt_step_c9_later score utils
    ((sort_desc score (utils.filter (fun u => u ≠ ""))).headD "")
    (chosen.drop (k + 1)) (chosen.take k) hu hbest
  have e1 : (c9_run_env score utils chosen k).attempts 1 =
      c9_attempt_one utils chosen k := rfl
  have e2 : (c9_run_env score utils chosen k).attempts 2 =
      c9_attempt_later utils := rfl
  have escore : (c9_run_env score utils chosen k).score = score := rfl
  by_cases hrest : chosen.drop (k + 1) = []
  · rw [if_pos hrest]
    rw [hrest] at h1 h2
    simp only [List.isEmpty_nil, if_true] at h2
    simp at h2
    simp [run_process, run_go, escore, e1, e2, h1, h2]
  · rw [if_neg hrest]
    have hje : ¬ ((chosen.drop (k + 1)).isEmpty = true) := by
      simp only [List.isEmpty_iff]
      exact hrest
    rw [if_neg hje] at h2
    simp at h2
    simp [run_process, run_go, escore, e1, e2, h1, h2]

/-- C9 counterexample: one utility, two chosen schedules, and a driver
failure while fetching the second (last pending) schedule.  The first
attempt completes `T1` (it is in the persistent results), the second attempt
finds the pending list empty — set, but exhausted — and takes the early
`return`: the run ends without writing any results file, so the completed
`T1` is not retained in any written output. -/
theorem c9_counterexample :
    (run_process (c9_run_env (fun _ => 0) ["U"] ["T1", "T2"] 1)).state.results
        = ["T1"] ∧
      (run_process (c9_run_env (fun _ => 0) ["U"] ["T1", "T2"] 1)).out
        = RunOut.earlyReturn := by
  exact ⟨rfl, rfl⟩

/-- Witness for the C9 theorem: failure while fetching the first of two
schedules; the retry fetches only the remaining schedule, and the written
results are exactly the remaining one. -/
theorem c9_schedule_resume_witness :
    (run_process (c9_run_env (fun _ => 0) ["U"] ["T1", "T2"] 0)).out =
      RunOut.written ["T2"] := by
  have h := c9_schedule_resume (fun _ => 0) ["U"] ["T1", "T2"] 0
    (by decide) (by decide)
  exact h.trans (by decide)
